import Mathlib

/-! Student clinic record table.

A shallow embedding of `Simple_CRUD-Projects/Student_Clinic_Record.cpp`.

The program keeps seven global parallel arrays of `maxrow` strings.  A slot `x`
is the seven entries at index `x`; it counts as empty when `Studcode[x]` is the
empty string.  The five operations scan the table with
`for (int x = 0; x < maxrow; x++)`; each such loop is embedded as a recursion
over the list of indices still to be visited, started on
`List.finRange maxrow`, that is `0, 1, ..., maxrow - 1` in this order.

Global state is passed explicitly: every operation maps a `Store` to the new
`Store` together with what it writes to `cout`.  The operations come in two
layers.  `AddStudent`, `UpdateStudent`, ... take the text a user types after
the `cin.getline` calls: `Buffers` holds the contents of the seven local
character buffers.  `AddStudentCin`, `UpdateStudentCin` and the menu loop
(`mainBody`, `mainLoop`, `main`) read that text from `Cin`, the state of the
input stream.
-/

namespace ClinicRecord

/-! ## Data model -/

/-- Capacity of the table, `const int maxrow = 50`. -/
abbrev maxrow : Nat := 50

/-- The seven global arrays `string X[maxrow]`, in the order of their declarations. -/
@[ext]
structure Store where
  StudName : Fin maxrow → String
  Studcode : Fin maxrow → String
  Studprogram : Fin maxrow → String
  Healthproblem : Fin maxrow → String
  Date : Fin maxrow → String
  Time : Fin maxrow → String
  ContactNum : Fin maxrow → String

/-- The seven local buffers `code, name, program, problem, date, time, contact`
of `AddStudent` and `UpdateStudent`, read as C strings once the seven
`cin.getline` calls have filled them. -/
structure Buffers where
  code : String
  name : String
  program : String
  problem : String
  date : String
  time : String
  contact : String
deriving DecidableEq, Repr

/-- The table at program start: `string X[maxrow] = {}` makes every entry empty. -/
def Store.init : Store where
  StudName := fun _ => ""
  Studcode := fun _ => ""
  Studprogram := fun _ => ""
  Healthproblem := fun _ => ""
  Date := fun _ => ""
  Time := fun _ => ""
  ContactNum := fun _ => ""

/-- The seven assignments `Studcode[x] = code; StudName[x] = name; ...` shared by
`AddStudent` (lines 47-53) and `UpdateStudent` (lines 166-172). -/
def Store.assign (s : Store) (x : Fin maxrow) (b : Buffers) : Store where
  Studcode := Function.update s.Studcode x b.code
  StudName := Function.update s.StudName x b.name
  Healthproblem := Function.update s.Healthproblem x b.problem
  Studprogram := Function.update s.Studprogram x b.program
  Date := Function.update s.Date x b.date
  Time := Function.update s.Time x b.time
  ContactNum := Function.update s.ContactNum x b.contact

/-- The seven entries of slot `x`, gathered in one record (used to state properties). -/
def Store.slot (s : Store) (x : Fin maxrow) : Buffers where
  code := s.Studcode x
  name := s.StudName x
  program := s.Studprogram x
  problem := s.Healthproblem x
  date := s.Date x
  time := s.Time x
  contact := s.ContactNum x

/-- The record whose seven fields are the empty string. -/
def Buffers.blank : Buffers := ⟨"", "", "", "", "", "", ""⟩

/-! ## Output -/

/-- One item written to `cout`: a fixed text, or a table row
`" " << counter << " | " << Studcode[x] << " | " << StudName[x] << " | " << Healthproblem[x]
<< " | " << Studprogram[x] << " | " << Date[x] << " | " << Time[x] << " | " << ContactNum[x]`. -/
inductive Out where
  | text (t : String)
  | row (counter : Nat) (code name problem program date time contact : String)
deriving DecidableEq, Repr

/-- The separator line: the character `=` 123 times (every such literal of the source,
split 68 + 55, 66 + 57 or 64 + 59, has this length). -/
def rule : String :=
  String.mk (List.replicate 123 '=')

/-- The column titles of the table printed by `SearchStudent` and `DisplayStudent`. -/
def header : String :=
  "No. | SR-Code |      Name     |   Health Problem  |    Program    |   Date    |  Time | Contact Number |"

/-- The row printed for slot `x` under number `counter` (lines 72-74 and 96-98). -/
def Store.row (s : Store) (counter : Nat) (x : Fin maxrow) : Out :=
  Out.row counter (s.Studcode x) (s.StudName x) (s.Healthproblem x) (s.Studprogram x)
    (s.Date x) (s.Time x) (s.ContactNum x)

/-- The seven prompts of `AddStudent` and `UpdateStudent`. -/
def prompts : List Out :=
  [Out.text "Student SR-Code: ", Out.text "Student Name: ", Out.text "Health Problem: ",
   Out.text "Student Program: ", Out.text "Date: ", Out.text "Time: ",
   Out.text "Contact Number: "]

/-! ## Operations -/

/-- The loop of `AddStudent` (lines 45-57) over the indices `xs` still to visit.
The test `Studcode[x] == "\0"` compares with a C string of length 0, so it holds
exactly when `Studcode[x]` is empty. -/
def AddStudent.loop (b : Buffers) (s : Store) : List (Fin maxrow) → Store
  | [] => s
  | x :: xs =>
    if s.Studcode x = "" then
      s.assign x b -- break
    else
      AddStudent.loop b s xs

/-- Create: `AddStudent`, with `b` the buffers as the seven `getline` calls left them. -/
def AddStudent (b : Buffers) (s : Store) : Store × List Out :=
  (AddStudent.loop b s (List.finRange maxrow), prompts)

/-- The loop of `SearchStudent` (lines 69-76): `counter` and the output written so far
are carried through the indices `xs` still to visit. -/
def SearchStudent.loop (search : String) (s : Store) :
    List (Fin maxrow) → Nat → List Out → Nat × List Out
  | [], counter, out => (counter, out)
  | x :: xs, counter, out =>
    if s.Studcode x = search then
      SearchStudent.loop search s xs (counter + 1) (out ++ [s.row (counter + 1) x])
    else
      SearchStudent.loop search s xs counter out

/-- Search: `SearchStudent(search)`.  No global array is assigned, so the store is
returned as it came. -/
def SearchStudent (search : String) (s : Store) : Store × List Out :=
  let out := [Out.text "Current Clinic Student Record(s): ", Out.text rule,
    Out.text header, Out.text rule]
  let r := SearchStudent.loop search s (List.finRange maxrow) 0 out
  let out := if r.1 = 0 then r.2 ++ [Out.text "No Record Found!"] else r.2
  (s, out ++ [Out.text rule])

/-- The loop of `DisplayStudent` (lines 93-100); the test `Studcode[x] != "\0"` holds
exactly when `Studcode[x]` is not empty. -/
def DisplayStudent.loop (s : Store) : List (Fin maxrow) → Nat → List Out → Nat × List Out
  | [], counter, out => (counter, out)
  | x :: xs, counter, out =>
    if s.Studcode x ≠ "" then
      DisplayStudent.loop s xs (counter + 1) (out ++ [s.row (counter + 1) x])
    else
      DisplayStudent.loop s xs counter out

/-- List: `DisplayStudent()`. -/
def DisplayStudent (s : Store) : Store × List Out :=
  let out := [Out.text "Current Student Clinical Record(s): ", Out.text rule,
    Out.text header, Out.text rule]
  let r := DisplayStudent.loop s (List.finRange maxrow) 0 out
  let out := if r.1 = 0 then r.2 ++ [Out.text "No Record Found!"] else r.2
  (s, out ++ [Out.text rule])

/-- The seven assignments of the empty string in `DeleteStudent` (lines 116-122). -/
def Store.clear (s : Store) (x : Fin maxrow) : Store where
  Studcode := Function.update s.Studcode x ""
  StudName := Function.update s.StudName x ""
  Healthproblem := Function.update s.Healthproblem x ""
  Studprogram := Function.update s.Studprogram x ""
  Date := Function.update s.Date x ""
  Time := Function.update s.Time x ""
  ContactNum := Function.update s.ContactNum x ""

/-- The loop of `DeleteStudent` (lines 112-127): store, `counter` and output after
visiting the indices `xs`, none of the earlier indices having matched. -/
def DeleteStudent.loop (search : String) (s : Store) :
    List (Fin maxrow) → Nat → List Out → Store × Nat × List Out
  | [], counter, out => (s, counter, out)
  | x :: xs, counter, out =>
    if s.Studcode x = search then
      (s.clear x, counter + 1,
        out ++ [Out.text "Student Record Successfully Deleted!"]) -- break
    else
      DeleteStudent.loop search s xs counter out

/-- Delete: `DeleteStudent(search)`. -/
def DeleteStudent (search : String) (s : Store) : Store × List Out :=
  let r := DeleteStudent.loop search s (List.finRange maxrow) 0 []
  let out := if r.2.1 = 0 then r.2.2 ++ [Out.text "SR-Code does not Exist!", Out.text rule]
    else r.2.2
  (r.1, out)

/-- The loop of `UpdateStudent` (lines 147-181).  The seven `getline` calls sit inside
the matching branch; `b` is what they leave in the buffers when they are reached. -/
def UpdateStudent.loop (search : String) (b : Buffers) (s : Store) :
    List (Fin maxrow) → Nat → List Out → Store × Nat × List Out
  | [], counter, out => (s, counter, out)
  | x :: xs, counter, out =>
    if s.Studcode x = search then
      (s.assign x b, counter + 1,
        out ++ prompts ++ [Out.text " Clinical Student Record Successfully Updated!",
          Out.text rule]) -- break
    else
      UpdateStudent.loop search b s xs counter out

/-- Update: `UpdateStudent(search)`. -/
def UpdateStudent (search : String) (b : Buffers) (s : Store) : Store × List Out :=
  let r := UpdateStudent.loop search b s (List.finRange maxrow) 0 []
  let out := if r.2.1 = 0 then r.2.2 ++ [Out.text "SR-Code Does not Exist!"] else r.2.2
  (r.1, out)

/-! ## Sample data -/

/-- The record of the scenario in the specification. -/
def juan : Buffers where
  code := "21-0001"
  name := "Juan Dela Cruz"
  program := "BSCS"
  problem := "Headache"
  date := "2024-01-10"
  time := "10:00"
  contact := "09171234567"

/-- A table whose `maxrow` slots all hold the record `b`. -/
def Store.full (b : Buffers) : Store where
  StudName := fun _ => b.name
  Studcode := fun _ => b.code
  Studprogram := fun _ => b.program
  Healthproblem := fun _ => b.problem
  Date := fun _ => b.date
  Time := fun _ => b.time
  ContactNum := fun _ => b.contact

/-- A second record, under another code. -/
def maria : Buffers where
  code := "21-0002"
  name := "Maria Clara"
  program := "BSIT"
  problem := "Fever"
  date := "2024-01-11"
  time := "14:30"
  contact := "09181234567"

/-- The sample record entered with an empty SR-Code line. -/
def juanNoCode : Buffers := { juan with code := "" }

/-! ## Sequences of operations -/

/-- A menu action that can change the table, with the text typed for it. -/
inductive Op where
  | create (b : Buffers)
  | update (search : String) (b : Buffers)
  | delete (search : String)
deriving DecidableEq, Repr

/-- The store after one action. -/
def Op.apply (o : Op) (s : Store) : Store :=
  match o with
  | Op.create b => (AddStudent b s).1
  | Op.update search b => (UpdateStudent search b s).1
  | Op.delete search => (DeleteStudent search s).1

/-- The store after a sequence of actions, first action first. -/
def run : List Op → Store → Store
  | [], s => s
  | o :: os, s => run os (o.apply s)

/-- The table rows among the output items. -/
def rowsOf (out : List Out) : List Out :=
  out.filter fun o => match o with
    | Out.row .. => true
    | Out.text _ => false

/-- The rows a table of the slots `xs` shows: slot order, numbered from 1. -/
def Store.table (s : Store) (xs : List (Fin maxrow)) : List Out :=
  (xs.enumFrom 1).map fun p => s.row p.1 p.2

/-- The number of slots `SearchStudent(search)` reports. -/
def searchCount (search : String) (s : Store) : Nat :=
  (rowsOf (SearchStudent search s).2).length

/-- The codes typed into the `code` buffer while the actions run from store `s`:
`AddStudent` always reads its seven lines, `UpdateStudent` reads them only when a
slot matches the search code, `DeleteStudent` reads none. -/
def enteredCodes : List Op → Store → List String
  | [], _ => []
  | Op.create b :: os, s => b.code :: enteredCodes os ((Op.create b).apply s)
  | Op.update search b :: os, s =>
    if ∃ x, s.Studcode x = search then
      b.code :: enteredCodes os ((Op.update search b).apply s)
    else
      enteredCodes os ((Op.update search b).apply s)
  | Op.delete search :: os, s => enteredCodes os ((Op.delete search).apply s)

/-- The table row that shows the record `b` under number `counter`. -/
def Buffers.row (b : Buffers) (counter : Nat) : Out :=
  Out.row counter b.code b.name b.problem b.program b.date b.time b.contact

/-- The rows that show the records `bs` in their order, numbered from 1. -/
def recordTable (bs : List Buffers) : List Out :=
  (bs.enumFrom 1).map fun p => p.2.row p.1

/-- The records of the occupied slots, in slot order. -/
def Store.records (s : Store) : List Buffers :=
  ((List.finRange maxrow).filter fun x => s.Studcode x ≠ "").map s.slot

/-! ## Standard input

The library calls the program makes on `cin`, after the C++11 rules for the classic
locale.  One `Char` stands for one `char` of the input. -/

/-- The state of `cin`: the characters not yet extracted, and whether `cin.good()` is
false, that is eofbit or failbit is set (the program never clears them). -/
structure Cin where
  buf : List Char
  bad : Bool
deriving DecidableEq, Repr

/-- The call `cin.ignore()`: one character is extracted and discarded; at the end of the
input eofbit is set; a stream that is not good is left alone. -/
def Cin.ignore (c : Cin) : Cin :=
  if c.bad then c
  else
    match c.buf with
    | [] => ⟨[], true⟩
    | _ :: rest => ⟨rest, false⟩

/-- The extraction of `cin.getline(buf, n)` with `room` free places left in `buf`
(`n - 1` at the start).  Tested in this order: end of input sets eofbit; a newline is
extracted and not stored; with no place left failbit is set; else the character is
stored.  Returns the stored characters and the stream. -/
def Cin.getlineLoop : Nat → List Char → List Char × Cin
  | _, [] => ([], ⟨[], true⟩)
  | room, ch :: rest =>
    if ch = '\n' then ([], ⟨rest, false⟩)
    else
      match room with
      | 0 => ([], ⟨ch :: rest, true⟩)
      | room + 1 => (ch :: (Cin.getlineLoop room rest).1, (Cin.getlineLoop room rest).2)

/-- The call `cin.getline(buf, n)` and the C string then found in `buf`: the stored
characters up to the first null character.  On a stream that is not good nothing is
extracted and `buf` holds the empty string. -/
def Cin.getline (c : Cin) (n : Nat) : String × Cin :=
  if c.bad then ("", c)
  else
    (String.mk ((Cin.getlineLoop (n - 1) c.buf).1.takeWhile fun ch => ch ≠ Char.ofNat 0),
      (Cin.getlineLoop (n - 1) c.buf).2)

/-- The extraction of `getline(cin, str)`: characters up to a newline, which is
extracted and not stored, or up to the end of the input, which sets eofbit. -/
def getlineLoop : List Char → List Char × Cin
  | [] => ([], ⟨[], true⟩)
  | ch :: rest =>
    if ch = '\n' then ([], ⟨rest, false⟩)
    else (ch :: (getlineLoop rest).1, (getlineLoop rest).2)

/-- The call `getline(cin, str)` of `main`: the new value of `str` and the stream.  On
a stream that is not good `str` keeps its value. -/
def getline (c : Cin) (str : String) : String × Cin :=
  if c.bad then (str, c)
  else (String.mk (getlineLoop c.buf).1, (getlineLoop c.buf).2)

/-- White space of the classic locale, skipped by `cin >> opt`. -/
def isspace (ch : Char) : Bool :=
  ch = ' ' || ch = '\t' || ch = '\n' || ch = Char.ofNat 11 || ch = Char.ofNat 12 || ch = '\r'

/-- The number written by a list of decimal digits. -/
def digitsValue (ds : List Char) : Nat :=
  ds.foldl (fun v d => 10 * v + (d.toNat - 48)) 0

/-- The call `cin >> opt` for `int opt`, given the old value of `opt`.  A stream that is
not good, or that ends while white space is skipped, leaves `opt` alone.  Else a sign
and decimal digits are extracted: without a digit `opt` becomes 0 and failbit is set; a
value out of the range of `int` is clamped and failbit is set; digits that run up to
the end of the input set eofbit. -/
def Cin.readInt (c : Cin) (opt : Int) : Int × Cin :=
  if c.bad then (opt, c)
  else
    match c.buf.dropWhile isspace with
    | [] => (opt, ⟨[], true⟩)
    | ch :: rest =>
      let body := if ch = '-' ∨ ch = '+' then rest else ch :: rest
      let ds := body.takeWhile Char.isDigit
      let tail := body.dropWhile Char.isDigit
      if ds.isEmpty then (0, ⟨tail, true⟩)
      else if ch = '-' then
        if 2147483648 < digitsValue ds then (-2147483648, ⟨tail, true⟩)
        else (-(digitsValue ds : Int), ⟨tail, tail.isEmpty⟩)
      else
        if 2147483647 < digitsValue ds then (2147483647, ⟨tail, true⟩)
        else ((digitsValue ds : Int), ⟨tail, tail.isEmpty⟩)

/-- The seven calls `cin.getline(code, 15); cin.getline(name, 50);
cin.getline(problem, 50); cin.getline(program, 30); cin.getline(date, 30);
cin.getline(time, 10); cin.getline(contact, 13)` of `AddStudent` and `UpdateStudent`:
the buffers they fill and the stream they leave. -/
def readBuffers (c : Cin) : Buffers × Cin :=
  let code := c.getline 15
  let name := code.2.getline 50
  let problem := name.2.getline 50
  let program := problem.2.getline 30
  let date := program.2.getline 30
  let time := date.2.getline 10
  let contact := time.2.getline 13
  ({ code := code.1, name := name.1, program := program.1, problem := problem.1,
     date := date.1, time := time.1, contact := contact.1 }, contact.2)

/-! ## The operations on the input stream -/

/-- The whole of `AddStudent()`: `cin.ignore()`, the seven reads, then the loop. -/
def AddStudentCin (c : Cin) (s : Store) : (Store × List Out) × Cin :=
  (AddStudent (readBuffers c.ignore).1 s, (readBuffers c.ignore).2)

/-- The loop of `UpdateStudent` (lines 147-181) with the stream: the seven reads are
made in the matching branch only. -/
def UpdateStudentCin.loop (search : String) (s : Store) :
    List (Fin maxrow) → Cin → Nat → List Out → (Store × Cin) × Nat × List Out
  | [], c, counter, out => ((s, c), counter, out)
  | x :: xs, c, counter, out =>
    if s.Studcode x = search then
      ((s.assign x (readBuffers c).1, (readBuffers c).2), counter + 1,
        out ++ prompts ++ [Out.text " Clinical Student Record Successfully Updated!",
          Out.text rule]) -- break
    else
      UpdateStudentCin.loop search s xs c counter out

/-- The whole of `UpdateStudent(search)`. -/
def UpdateStudentCin (search : String) (c : Cin) (s : Store) : (Store × List Out) × Cin :=
  let r := UpdateStudentCin.loop search s (List.finRange maxrow) c 0 []
  let out := if r.2.1 = 0 then r.2.2 ++ [Out.text "SR-Code Does not Exist!"] else r.2.2
  ((r.1.1, out), r.1.2)

/-! ## The menu loop -/

/-- The variables of `main` and the global table. -/
structure Machine where
  cin : Cin
  opt : Int
  studcode : String
  store : Store

/-- The state when the loop is entered: `input` on `cin`, an empty table, an empty
`studcode`; `opt` is not initialised by the program, `opt0` is the value it happens to
hold. -/
def Machine.start (input : List Char) (opt0 : Int) : Machine :=
  ⟨⟨input, false⟩, opt0, "", Store.init⟩

/-- The line of 123 colons under the menu. -/
def colons : String :=
  String.mk (List.replicate 123 ':')

/-- The menu and the prompt printed at the start of every iteration (lines 198-208). -/
def menu : List Out :=
  [Out.text "1. Create a Student Record", Out.text "2. Search a Student Record",
   Out.text "3. Display all Student Record", Out.text "4. Delete a Student Record",
   Out.text "5. Update a Student Record", Out.text "6. Exit ", Out.text colons,
   Out.text "Select Option >> "]

/-- The statement `switch (opt)` of `main` (lines 211-243), `opt` already read, `c` the
stream after that read. -/
def menuSwitch (opt : Int) (c : Cin) (studcode : String) (s : Store) : Machine × List Out :=
  if opt = 1 then
    (⟨(AddStudentCin c s).2, opt, studcode, (AddStudentCin c s).1.1⟩, (AddStudentCin c s).1.2)
  else if opt = 2 then
    let g := getline c.ignore studcode
    (⟨g.2, opt, g.1, (SearchStudent g.1 s).1⟩,
      Out.text "Search by SR-Code >> " :: (SearchStudent g.1 s).2)
  else if opt = 3 then
    (⟨c, opt, studcode, (DisplayStudent s).1⟩, (DisplayStudent s).2)
  else if opt = 4 then
    let g := getline c.ignore studcode
    (⟨g.2.ignore, opt, g.1, (DeleteStudent g.1 s).1⟩,
      Out.text "Delete by SR-Code >> " :: (DeleteStudent g.1 s).2)
  else if opt = 5 then
    let g := getline c.ignore studcode
    (⟨(UpdateStudentCin g.1 g.2 s).2, opt, g.1, (UpdateStudentCin g.1 g.2 s).1.1⟩,
      Out.text "Search by SR-Code >> " :: (UpdateStudentCin g.1 g.2 s).1.2)
  else
    (⟨c, opt, studcode, s⟩, [])

/-- One pass through the body of the `do ... while` loop (lines 198-243). -/
def mainBody (m : Machine) : Machine × List Out :=
  let r := m.cin.readInt m.opt
  let b := menuSwitch r.1 r.2 m.studcode m.store
  (b.1, menu ++ b.2)

/-- The loop `do ... while (opt != 6)`, cut off after `fuel` passes: `none` when the
loop is still running then. -/
def mainLoop : Nat → Machine → Option (Machine × List Out)
  | 0, _ => none
  | fuel + 1, m =>
    if (mainBody m).1.opt ≠ 6 then
      (mainLoop fuel (mainBody m).1).map fun q => (q.1, (mainBody m).2 ++ q.2)
    else
      some (mainBody m)

/-- The program: the banner, the loop, the closing message. -/
def main (fuel : Nat) (input : List Char) (opt0 : Int) : Option (Machine × List Out) :=
  (mainLoop fuel (Machine.start input opt0)).map fun q =>
    (q.1, [Out.text "Batangas State University Clinic\nAlangilan Campus ", Out.text colons,
        Out.text "Menu:\n"] ++ q.2
      ++ [Out.text "Student Clinical Record System has been Terminated."])

/-- The state after `n` passes through the loop body, whether or not the loop would
have stopped before. -/
def passes (n : Nat) (m : Machine) : Machine :=
  match n with
  | 0 => m
  | n + 1 => passes n (mainBody m).1

/-! ## Sample sessions -/

/-- The input of a session: option 4, the code "21-0001", then option 6, each on a
line of its own. -/
def sessionDelete : List Char :=
  ['4', '\n', '2', '1', '-', '0', '0', '0', '1', '\n', '6', '\n']

/-- The same session with option 2 (Search) in place of option 4 (Delete). -/
def sessionSearch : List Char :=
  ['2', '\n', '2', '1', '-', '0', '0', '0', '1', '\n', '6', '\n']

/-- The same session with option 5 (Update) in place of option 4 (Delete). -/
def sessionUpdate : List Char :=
  ['5', '\n', '2', '1', '-', '0', '0', '0', '1', '\n', '6', '\n']

/-! ## Field lengths -/

/-- The record respects the sizes of the buffers: one less than `char code[15]`,
`name[50]`, `program[30]`, `problem[50]`, `date[30]`, `time[10]`, `contact[13]`. -/
def Buffers.Bounded (b : Buffers) : Prop :=
  b.code.length ≤ 14 ∧ b.name.length ≤ 49 ∧ b.program.length ≤ 29 ∧ b.problem.length ≤ 49 ∧
    b.date.length ≤ 29 ∧ b.time.length ≤ 9 ∧ b.contact.length ≤ 12

instance (b : Buffers) : Decidable b.Bounded := by
  unfold Buffers.Bounded
  infer_instance

/-- Every slot of the table respects the sizes of the buffers. -/
def Store.Bounded (s : Store) : Prop :=
  ∀ x, (s.slot x).Bounded

/-! ## The index list -/

/-- The index list splits at the lowest index that satisfies `p`: the indices before
it are exactly the smaller ones, the indices after it exactly the larger ones. -/
theorem finRange_split {n : Nat} (p : Fin n → Bool) (h : ∃ x, p x = true) :
    ∃ x pre post, List.finRange n = pre ++ x :: post ∧ p x = true ∧
      (∀ y, y < x → p y = false) ∧ (∀ y, y ∈ pre ↔ y < x) ∧ (∀ y, y ∈ post ↔ x < y) := by
  obtain ⟨x0, hx0⟩ := h
  cases hf : (List.finRange n).find? p with
  | none =>
    rw [List.find?_eq_none] at hf
    exact absurd hx0 (hf x0 (List.mem_finRange x0))
  | some x =>
    obtain ⟨hpx, pre, post, hsplit, hpre⟩ := List.find?_eq_some.mp hf
    have hpw := List.pairwise_lt_finRange n
    rw [hsplit, List.pairwise_append, List.pairwise_cons] at hpw
    obtain ⟨-, ⟨hpost, -⟩, hcross⟩ := hpw
    have hmem : ∀ y, y ∈ pre ∨ y = x ∨ y ∈ post := by
      intro y
      have hy := List.mem_finRange y
      rw [hsplit, List.mem_append, List.mem_cons] at hy
      exact hy
    have hpre_lt : ∀ y, y ∈ pre ↔ y < x := by
      intro y
      constructor
      · intro hy
        exact hcross y hy x (List.mem_cons_self x post)
      · intro hy
        rcases hmem y with h1 | h1 | h1
        · exact h1
        · exact absurd hy (by rw [h1]; exact lt_irrefl x)
        · exact absurd hy (not_lt_of_gt (hpost y h1))
    have hpost_gt : ∀ y, y ∈ post ↔ x < y := by
      intro y
      constructor
      · intro hy
        exact hpost y hy
      · intro hy
        rcases hmem y with h1 | h1 | h1
        · exact absurd hy (not_lt_of_gt ((hpre_lt y).mp h1))
        · exact absurd hy (by rw [h1]; exact lt_irrefl x)
        · exact h1
    refine ⟨x, pre, post, hsplit, hpx, ?_, hpre_lt, hpost_gt⟩
    intro y hy
    have := hpre y ((hpre_lt y).mpr hy)
    simpa using this

/-! ## Slots after an assignment -/

theorem juan_code_ne : juan.code ≠ "" := by decide

theorem Store.slot_assign_same (s : Store) (x : Fin maxrow) (b : Buffers) :
    (s.assign x b).slot x = b := by
  cases b
  simp [Store.slot, Store.assign]

theorem Store.slot_assign_other (s : Store) (x y : Fin maxrow) (b : Buffers) (h : y ≠ x) :
    (s.assign x b).slot y = s.slot y := by
  simp [Store.slot, Store.assign, Function.update_noteq h]

theorem Store.slot_clear_same (s : Store) (x : Fin maxrow) :
    (s.clear x).slot x = Buffers.blank := by
  simp [Store.slot, Store.clear, Buffers.blank]

theorem Store.slot_clear_other (s : Store) (x y : Fin maxrow) (h : y ≠ x) :
    (s.clear x).slot y = s.slot y := by
  simp [Store.slot, Store.clear, Function.update_noteq h]

/-! ## Create -/

theorem AddStudent_loop_skip (b : Buffers) (s : Store) (pre l : List (Fin maxrow))
    (h : ∀ y ∈ pre, s.Studcode y ≠ "") :
    AddStudent.loop b s (pre ++ l) = AddStudent.loop b s l := by
  induction pre with
  | nil => rfl
  | cons y ys ih =>
    have hy : s.Studcode y ≠ "" := h y (List.mem_cons_self y ys)
    rw [List.cons_append, AddStudent.loop, if_neg hy]
    exact ih (fun z hz => h z (List.mem_cons_of_mem y hz))

/-- With a blank slot in the table, `AddStudent` assigns the lowest blank slot. -/
theorem AddStudent_eq_assign (b : Buffers) (s : Store) (h : ∃ x, s.Studcode x = "") :
    ∃ x, s.Studcode x = "" ∧ (∀ y, y < x → s.Studcode y ≠ "") ∧
      (AddStudent b s).1 = s.assign x b := by
  obtain ⟨x, pre, post, hsplit, hpx, hlow, hpre, -⟩ :=
    finRange_split (fun x => decide (s.Studcode x = ""))
      (by obtain ⟨x, hx⟩ := h; exact ⟨x, by simpa using hx⟩)
  have hx : s.Studcode x = "" := by simpa using hpx
  have hlow2 : ∀ y, y < x → s.Studcode y ≠ "" := by
    intro y hy
    simpa using hlow y hy
  refine ⟨x, hx, hlow2, ?_⟩
  show AddStudent.loop b s (List.finRange maxrow) = s.assign x b
  rw [hsplit, AddStudent_loop_skip b s pre _ (fun y hy => hlow2 y ((hpre y).mp hy)),
    AddStudent.loop, if_pos hx]

/-- Without a blank slot, `AddStudent` leaves the table as it is. -/
theorem AddStudent_eq_self (b : Buffers) (s : Store) (h : ∀ x, s.Studcode x ≠ "") :
    (AddStudent b s).1 = s := by
  show AddStudent.loop b s (List.finRange maxrow) = s
  have := AddStudent_loop_skip b s (List.finRange maxrow) [] (fun y _ => h y)
  rw [List.append_nil] at this
  rw [this, AddStudent.loop]

/-- C1: when some slot has a blank code, Create writes the seven fields of the record
into the lowest-index slot whose code is blank and leaves every other slot unchanged. -/
theorem C1_create_fills_first_blank_slot (s : Store) (r : Buffers)
    (h : ∃ x, s.Studcode x = "") :
    ∃ x, s.Studcode x = "" ∧ (∀ y, y < x → s.Studcode y ≠ "") ∧
      (AddStudent r s).1.slot x = r ∧
      ∀ y, y ≠ x → (AddStudent r s).1.slot y = s.slot y := by
  obtain ⟨x, hx, hlow, heq⟩ := AddStudent_eq_assign r s h
  refine ⟨x, hx, hlow, ?_, ?_⟩
  · rw [heq]
    exact Store.slot_assign_same s x r
  · intro y hy
    rw [heq]
    exact Store.slot_assign_other s x y r hy

/-- Witness for C1: the initial table has a blank slot, and Create of the sample record
fills its lowest blank slot. -/
theorem C1_create_fills_first_blank_slot_witness :
    (∃ x, Store.init.Studcode x = "") ∧
    ∃ x, Store.init.Studcode x = "" ∧ (∀ y, y < x → Store.init.Studcode y ≠ "") ∧
      (AddStudent juan Store.init).1.slot x = juan ∧
      ∀ y, y ≠ x → (AddStudent juan Store.init).1.slot y = Store.init.slot y :=
  ⟨⟨0, rfl⟩, C1_create_fills_first_blank_slot Store.init juan ⟨0, rfl⟩⟩

/-- C2: when all 50 slots hold a non-blank code, Create leaves the whole table, hence
each of its 50 slots, exactly as it was. -/
theorem C2_create_on_full_table_changes_nothing (s : Store) (r : Buffers)
    (h : ∀ x, s.Studcode x ≠ "") :
    (AddStudent r s).1 = s ∧ ∀ x, (AddStudent r s).1.slot x = s.slot x := by
  have heq := AddStudent_eq_self r s h
  exact ⟨heq, fun x => by rw [heq]⟩

/-- Witness for C2: a table filled with the sample record is untouched by one more
Create. -/
theorem C2_create_on_full_table_changes_nothing_witness :
    (∀ x, (Store.full juan).Studcode x ≠ "") ∧
    ((AddStudent maria (Store.full juan)).1 = Store.full juan ∧
      ∀ x, (AddStudent maria (Store.full juan)).1.slot x = (Store.full juan).slot x) :=
  ⟨fun _ => juan_code_ne,
    C2_create_on_full_table_changes_nothing (Store.full juan) maria
      (fun _ => juan_code_ne)⟩

/-! ## Tables: Search and List -/

theorem rowsOf_append (a b : List Out) : rowsOf (a ++ b) = rowsOf a ++ rowsOf b := by
  simp [rowsOf]

theorem rowsOf_table (s : Store) (xs : List (Fin maxrow)) : rowsOf (s.table xs) = s.table xs := by
  unfold rowsOf
  rw [List.filter_eq_self]
  intro o ho
  simp only [Store.table, List.mem_map] at ho
  obtain ⟨q, -, rfl⟩ := ho
  rfl

theorem text_not_mem_table (s : Store) (xs : List (Fin maxrow)) (t : String) :
    Out.text t ∉ s.table xs := by
  intro ho
  simp only [Store.table, List.mem_map] at ho
  obtain ⟨q, -, hq⟩ := ho
  simp [Store.row] at hq

/-- The rows of a framed table: four title lines, the rows, the optional notice and
the closing rule. -/
theorem rowsOf_framed (s : Store) (xs : List (Fin maxrow)) (t1 t2 t3 t4 t5 : String)
    (extra : List Out) (hextra : rowsOf extra = []) :
    rowsOf (([Out.text t1, Out.text t2, Out.text t3, Out.text t4] ++ s.table xs ++ extra)
      ++ [Out.text t5]) = s.table xs := by
  rw [rowsOf_append, rowsOf_append, rowsOf_append, rowsOf_table, hextra]
  simp [rowsOf]

theorem SearchStudent_loop_eq (search : String) (s : Store) (l : List (Fin maxrow))
    (counter : Nat) (out : List Out) :
    SearchStudent.loop search s l counter out =
      (counter + (l.filter fun x => s.Studcode x = search).length,
        out ++ ((l.filter fun x => s.Studcode x = search).enumFrom (counter + 1)).map
          fun q => s.row q.1 q.2) := by
  induction l generalizing counter out with
  | nil => simp [SearchStudent.loop]
  | cons x xs ih =>
    by_cases h : s.Studcode x = search
    · rw [SearchStudent.loop, if_pos h, ih]
      simp [List.filter_cons, h]
      omega
    · rw [SearchStudent.loop, if_neg h, ih]
      simp [List.filter_cons, h]

theorem DisplayStudent_loop_eq (s : Store) (l : List (Fin maxrow))
    (counter : Nat) (out : List Out) :
    DisplayStudent.loop s l counter out =
      (counter + (l.filter fun x => s.Studcode x ≠ "").length,
        out ++ ((l.filter fun x => s.Studcode x ≠ "").enumFrom (counter + 1)).map
          fun q => s.row q.1 q.2) := by
  induction l generalizing counter out with
  | nil => simp [DisplayStudent.loop]
  | cons x xs ih =>
    by_cases h : s.Studcode x = ""
    · rw [DisplayStudent.loop, if_neg (not_not.mpr h), ih]
      simp [List.filter_cons, h]
    · rw [DisplayStudent.loop, if_pos h, ih]
      simp [List.filter_cons, h]
      omega

/-- The whole output of `SearchStudent`. -/
theorem SearchStudent_out_eq (search : String) (s : Store) :
    (SearchStudent search s).2 =
      ([Out.text "Current Clinic Student Record(s): ", Out.text rule, Out.text header,
          Out.text rule]
        ++ s.table ((List.finRange maxrow).filter fun x => s.Studcode x = search)
        ++ (if ((List.finRange maxrow).filter fun x => s.Studcode x = search).length = 0
            then [Out.text "No Record Found!"] else []))
        ++ [Out.text rule] := by
  simp only [SearchStudent, SearchStudent_loop_eq, Store.table, Nat.zero_add]
  split <;> simp

/-- The whole output of `DisplayStudent`. -/
theorem DisplayStudent_out_eq (s : Store) :
    (DisplayStudent s).2 =
      ([Out.text "Current Student Clinical Record(s): ", Out.text rule, Out.text header,
          Out.text rule]
        ++ s.table ((List.finRange maxrow).filter fun x => s.Studcode x ≠ "")
        ++ (if ((List.finRange maxrow).filter fun x => s.Studcode x ≠ "").length = 0
            then [Out.text "No Record Found!"] else []))
        ++ [Out.text rule] := by
  simp only [DisplayStudent, DisplayStudent_loop_eq, Store.table, Nat.zero_add]
  split <;> simp

theorem title_search_ne : "Current Clinic Student Record(s): " ≠ "No Record Found!" := by decide

theorem title_display_ne : "Current Student Clinical Record(s): " ≠ "No Record Found!" := by
  decide

theorem rule_ne : rule ≠ "No Record Found!" := by decide

theorem header_ne : header ≠ "No Record Found!" := by decide

/-- In a framed table the notice is present exactly when it was appended. -/
theorem notice_mem_framed (s : Store) (xs : List (Fin maxrow)) (t1 : String)
    (h1 : t1 ≠ "No Record Found!") (c : Prop) [Decidable c] :
    Out.text "No Record Found!" ∈
      ([Out.text t1, Out.text rule, Out.text header, Out.text rule] ++ s.table xs
        ++ (if c then [Out.text "No Record Found!"] else [])) ++ [Out.text rule] ↔ c := by
  have h2 := rule_ne
  have h3 := header_ne
  have h4 := text_not_mem_table s xs "No Record Found!"
  by_cases hc : c
  · simp [hc]
  · simp [hc, h4, Ne.symm h1, Ne.symm h2, Ne.symm h3]

/-- C3: Search leaves the store as it is; its rows are the slots whose code equals the
query, in increasing slot order and numbered 1, 2, ...; and it prints
"No Record Found!" exactly when no slot's code equals the query. -/
theorem C3_search_reports_exactly_the_matching_slots (search : String) (s : Store) :
    (SearchStudent search s).1 = s ∧
    rowsOf (SearchStudent search s).2 =
      s.table ((List.finRange maxrow).filter fun x => s.Studcode x = search) ∧
    (Out.text "No Record Found!" ∈ (SearchStudent search s).2 ↔
      ∀ x, s.Studcode x ≠ search) := by
  refine ⟨rfl, ?_, ?_⟩
  · rw [SearchStudent_out_eq]
    apply rowsOf_framed
    split <;> rfl
  · rw [SearchStudent_out_eq, notice_mem_framed s _ _ title_search_ne]
    simp [List.filter_eq_nil_iff]

/-- C6: List leaves the store as it is; its rows are the slots whose code is not
blank, in increasing slot order and numbered 1, 2, ..., k without gaps; and it prints
"No Record Found!" exactly when every slot's code is blank. -/
theorem C6_list_reports_exactly_the_occupied_slots (s : Store) :
    (DisplayStudent s).1 = s ∧
    rowsOf (DisplayStudent s).2 =
      s.table ((List.finRange maxrow).filter fun x => s.Studcode x ≠ "") ∧
    (Out.text "No Record Found!" ∈ (DisplayStudent s).2 ↔ ∀ x, s.Studcode x = "") := by
  refine ⟨rfl, ?_, ?_⟩
  · rw [DisplayStudent_out_eq]
    apply rowsOf_framed
    split <;> rfl
  · rw [DisplayStudent_out_eq, notice_mem_framed s _ _ title_display_ne]
    simp [List.filter_eq_nil_iff]

/-! ## Delete -/

theorem DeleteStudent_loop_skip (search : String) (s : Store) (pre l : List (Fin maxrow))
    (counter : Nat) (out : List Out) (h : ∀ y ∈ pre, s.Studcode y ≠ search) :
    DeleteStudent.loop search s (pre ++ l) counter out =
      DeleteStudent.loop search s l counter out := by
  induction pre with
  | nil => rfl
  | cons y ys ih =>
    have hy : s.Studcode y ≠ search := h y (List.mem_cons_self y ys)
    rw [List.cons_append, DeleteStudent.loop, if_neg hy]
    exact ih (fun z hz => h z (List.mem_cons_of_mem y hz))

/-- With a matching slot, `DeleteStudent` clears the lowest one and prints the
success line only. -/
theorem DeleteStudent_eq_clear (search : String) (s : Store)
    (h : ∃ x, s.Studcode x = search) :
    ∃ x, s.Studcode x = search ∧ (∀ y, y < x → s.Studcode y ≠ search) ∧
      DeleteStudent search s =
        (s.clear x, [Out.text "Student Record Successfully Deleted!"]) := by
  obtain ⟨x, pre, post, hsplit, hpx, hlow, hpre, -⟩ :=
    finRange_split (fun x => decide (s.Studcode x = search))
      (by obtain ⟨x, hx⟩ := h; exact ⟨x, by simpa using hx⟩)
  have hx : s.Studcode x = search := by simpa using hpx
  have hlow2 : ∀ y, y < x → s.Studcode y ≠ search := by
    intro y hy
    simpa using hlow y hy
  refine ⟨x, hx, hlow2, ?_⟩
  unfold DeleteStudent
  rw [hsplit, DeleteStudent_loop_skip search s pre _ 0 []
    (fun y hy => hlow2 y ((hpre y).mp hy)), DeleteStudent.loop, if_pos hx]
  simp

/-- Without a matching slot, `DeleteStudent` keeps the table and prints the
"does not Exist" line and a rule. -/
theorem DeleteStudent_eq_self (search : String) (s : Store)
    (h : ∀ x, s.Studcode x ≠ search) :
    DeleteStudent search s = (s, [Out.text "SR-Code does not Exist!", Out.text rule]) := by
  have := DeleteStudent_loop_skip search s (List.finRange maxrow) [] 0 [] (fun y _ => h y)
  rw [List.append_nil] at this
  unfold DeleteStudent
  rw [this, DeleteStudent.loop]
  simp

/-- C7: when some slot's code equals the argument, Delete sets the seven fields of the
lowest-index matching slot to the empty string, leaves every other slot unchanged (a
later slot with the same code too), and prints the success line. -/
theorem C7_delete_clears_first_matching_slot (search : String) (s : Store)
    (h : ∃ x, s.Studcode x = search) :
    ∃ x, s.Studcode x = search ∧ (∀ y, y < x → s.Studcode y ≠ search) ∧
      (DeleteStudent search s).1.slot x = Buffers.blank ∧
      (∀ y, y ≠ x → (DeleteStudent search s).1.slot y = s.slot y) ∧
      (DeleteStudent search s).2 = [Out.text "Student Record Successfully Deleted!"] := by
  obtain ⟨x, hx, hlow, heq⟩ := DeleteStudent_eq_clear search s h
  refine ⟨x, hx, hlow, ?_, ?_, ?_⟩
  · rw [heq]
    exact Store.slot_clear_same s x
  · intro y hy
    rw [heq]
    exact Store.slot_clear_other s x y hy
  · rw [heq]

/-- Witness for C7: in a table filled with copies of the sample record, all under
the same code, Delete of that code clears one slot and keeps the 49 others. -/
theorem C7_delete_clears_first_matching_slot_witness :
    (∃ x, (Store.full juan).Studcode x = "21-0001") ∧
    ∃ x, (Store.full juan).Studcode x = "21-0001" ∧
      (∀ y, y < x → (Store.full juan).Studcode y ≠ "21-0001") ∧
      (DeleteStudent "21-0001" (Store.full juan)).1.slot x = Buffers.blank ∧
      (∀ y, y ≠ x →
        (DeleteStudent "21-0001" (Store.full juan)).1.slot y = (Store.full juan).slot y) ∧
      (DeleteStudent "21-0001" (Store.full juan)).2 =
        [Out.text "Student Record Successfully Deleted!"] :=
  ⟨⟨0, rfl⟩, C7_delete_clears_first_matching_slot "21-0001" (Store.full juan) ⟨0, rfl⟩⟩

theorem not_exist_ne : "SR-Code does not Exist!" ≠ "Student Record Successfully Deleted!" := by
  decide

/-- C8: Delete prints "SR-Code does not Exist!" if and only if no slot's code equals
the argument, and in that case the table, hence every slot, is unchanged. -/
theorem C8_delete_reports_missing_code (search : String) (s : Store) :
    (Out.text "SR-Code does not Exist!" ∈ (DeleteStudent search s).2 ↔
      ∀ x, s.Studcode x ≠ search) ∧
    ((∀ x, s.Studcode x ≠ search) →
      (DeleteStudent search s).1 = s ∧ ∀ x, (DeleteStudent search s).1.slot x = s.slot x) := by
  constructor
  · constructor
    · intro hmem
      by_contra hex
      push_neg at hex
      obtain ⟨x, -, -, heq⟩ := DeleteStudent_eq_clear search s hex
      rw [heq] at hmem
      simp [not_exist_ne] at hmem
    · intro hno
      rw [DeleteStudent_eq_self search s hno]
      simp
  · intro hno
    rw [DeleteStudent_eq_self search s hno]
    exact ⟨rfl, fun _ => rfl⟩

/-- Witness for C8: no slot of the initial table holds the sample code, so Delete
reports it missing and changes nothing. -/
theorem C8_delete_reports_missing_code_witness :
    (∀ x, Store.init.Studcode x ≠ "21-0001") ∧
    Out.text "SR-Code does not Exist!" ∈ (DeleteStudent "21-0001" Store.init).2 ∧
    (DeleteStudent "21-0001" Store.init).1 = Store.init :=
  ⟨fun _ => Ne.symm juan_code_ne,
    (C8_delete_reports_missing_code "21-0001" Store.init).1.mpr
      (fun _ => Ne.symm juan_code_ne),
    ((C8_delete_reports_missing_code "21-0001" Store.init).2
      (fun _ => Ne.symm juan_code_ne)).1⟩

/-! ## Update -/

theorem UpdateStudent_loop_skip (search : String) (b : Buffers) (s : Store)
    (pre l : List (Fin maxrow)) (counter : Nat) (out : List Out)
    (h : ∀ y ∈ pre, s.Studcode y ≠ search) :
    UpdateStudent.loop search b s (pre ++ l) counter out =
      UpdateStudent.loop search b s l counter out := by
  induction pre with
  | nil => rfl
  | cons y ys ih =>
    have hy : s.Studcode y ≠ search := h y (List.mem_cons_self y ys)
    rw [List.cons_append, UpdateStudent.loop, if_neg hy]
    exact ih (fun z hz => h z (List.mem_cons_of_mem y hz))

/-- With a matching slot, `UpdateStudent` assigns the lowest one and prints the
prompts, the success line and a rule. -/
theorem UpdateStudent_eq_assign (search : String) (b : Buffers) (s : Store)
    (h : ∃ x, s.Studcode x = search) :
    ∃ x, s.Studcode x = search ∧ (∀ y, y < x → s.Studcode y ≠ search) ∧
      UpdateStudent search b s =
        (s.assign x b,
          prompts ++ [Out.text " Clinical Student Record Successfully Updated!",
            Out.text rule]) := by
  obtain ⟨x, pre, post, hsplit, hpx, hlow, hpre, -⟩ :=
    finRange_split (fun x => decide (s.Studcode x = search))
      (by obtain ⟨x, hx⟩ := h; exact ⟨x, by simpa using hx⟩)
  have hx : s.Studcode x = search := by simpa using hpx
  have hlow2 : ∀ y, y < x → s.Studcode y ≠ search := by
    intro y hy
    simpa using hlow y hy
  refine ⟨x, hx, hlow2, ?_⟩
  unfold UpdateStudent
  rw [hsplit, UpdateStudent_loop_skip search b s pre _ 0 []
    (fun y hy => hlow2 y ((hpre y).mp hy)), UpdateStudent.loop, if_pos hx]
  simp

/-- Without a matching slot, `UpdateStudent` keeps the table and prints the
"Does not Exist" line only. -/
theorem UpdateStudent_eq_self (search : String) (b : Buffers) (s : Store)
    (h : ∀ x, s.Studcode x ≠ search) :
    UpdateStudent search b s = (s, [Out.text "SR-Code Does not Exist!"]) := by
  have := UpdateStudent_loop_skip search b s (List.finRange maxrow) [] 0 [] (fun y _ => h y)
  rw [List.append_nil] at this
  unfold UpdateStudent
  rw [this, UpdateStudent.loop]
  simp

/-- C10: when some slot's code equals the search code, Update overwrites the seven
fields of the lowest-index matching slot with the entered record, so that the slot's
code becomes the entered code, and leaves every other slot unchanged (a later slot
with the same code too). -/
theorem C10_update_overwrites_first_matching_slot (search : String) (r : Buffers)
    (s : Store) (h : ∃ x, s.Studcode x = search) :
    ∃ x, s.Studcode x = search ∧ (∀ y, y < x → s.Studcode y ≠ search) ∧
      (UpdateStudent search r s).1.slot x = r ∧
      (UpdateStudent search r s).1.Studcode x = r.code ∧
      ∀ y, y ≠ x → (UpdateStudent search r s).1.slot y = s.slot y := by
  obtain ⟨x, hx, hlow, heq⟩ := UpdateStudent_eq_assign search r s h
  refine ⟨x, hx, hlow, ?_, ?_, ?_⟩
  · rw [heq]
    exact Store.slot_assign_same s x r
  · rw [heq]
    simp [Store.assign]
  · intro y hy
    rw [heq]
    exact Store.slot_assign_other s x y r hy

/-- Witness for C10: in a table filled with copies of the sample record, Update under
the sample code with a second record entered rewrites one slot and keeps the 49 others. -/
theorem C10_update_overwrites_first_matching_slot_witness :
    (∃ x, (Store.full juan).Studcode x = "21-0001") ∧
    ∃ x, (Store.full juan).Studcode x = "21-0001" ∧
      (∀ y, y < x → (Store.full juan).Studcode y ≠ "21-0001") ∧
      (UpdateStudent "21-0001" maria (Store.full juan)).1.slot x = maria ∧
      (UpdateStudent "21-0001" maria (Store.full juan)).1.Studcode x = maria.code ∧
      ∀ y, y ≠ x →
        (UpdateStudent "21-0001" maria (Store.full juan)).1.slot y
          = (Store.full juan).slot y :=
  ⟨⟨0, rfl⟩,
    C10_update_overwrites_first_matching_slot "21-0001" maria (Store.full juan) ⟨0, rfl⟩⟩

/-! ## Repeated Delete -/

/-- The index list splits at any index `x` into the smaller and the larger indices. -/
theorem finRange_split_at {n : Nat} (x : Fin n) :
    ∃ pre post, List.finRange n = pre ++ x :: post ∧
      (∀ y, y ∈ pre ↔ y < x) ∧ (∀ y, y ∈ post ↔ x < y) := by
  obtain ⟨x1, pre, post, hsplit, hpx, -, hpre, hpost⟩ :=
    finRange_split (fun y => decide (y = x)) ⟨x, by simp⟩
  have hx : x1 = x := by simpa using hpx
  subst hx
  exact ⟨pre, post, hsplit, hpre, hpost⟩

theorem length_table (s : Store) (xs : List (Fin maxrow)) : (s.table xs).length = xs.length := by
  simp [Store.table]

theorem searchCount_eq (search : String) (s : Store) :
    searchCount search s =
      ((List.finRange maxrow).filter fun x => s.Studcode x = search).length := by
  unfold searchCount
  rw [SearchStudent_out_eq, rowsOf_framed, length_table]
  split <;> rfl

/-- Clearing a slot that holds a non-blank code lowers the number of matches by one. -/
theorem searchCount_clear (code : String) (s : Store) (x : Fin maxrow) (hc : code ≠ "")
    (hx : s.Studcode x = code) :
    searchCount code (s.clear x) + 1 = searchCount code s := by
  obtain ⟨pre, post, hsplit, hpre, hpost⟩ := finRange_split_at x
  have hother : ∀ y, y ≠ x → (s.clear x).Studcode y = s.Studcode y := by
    intro y hy
    simp [Store.clear, Function.update_noteq hy]
  have hself : (s.clear x).Studcode x = "" := by simp [Store.clear]
  have h1 : (pre.filter fun y => (s.clear x).Studcode y = code)
      = pre.filter fun y => s.Studcode y = code := by
    apply List.filter_congr
    intro y hy
    rw [hother y (ne_of_lt ((hpre y).mp hy))]
  have h2 : (post.filter fun y => (s.clear x).Studcode y = code)
      = post.filter fun y => s.Studcode y = code := by
    apply List.filter_congr
    intro y hy
    rw [hother y (ne_of_gt ((hpost y).mp hy))]
  rw [searchCount_eq, searchCount_eq, hsplit, List.filter_append, List.filter_append,
    List.filter_cons, List.filter_cons, h1, h2, hself]
  simp [hx, Ne.symm hc]
  omega

/-- C9, for a non-blank code held by some slot: Delete lowers the number of slots that
Search reports by exactly one; a second Delete with the same code clears the next
matching slot, with success, when a match remains, and otherwise prints
"SR-Code does not Exist!" and changes nothing. -/
theorem C9_delete_removes_one_match_at_a_time (code : String) (s : Store)
    (hc : code ≠ "") (h : ∃ x, s.Studcode x = code) :
    searchCount code (DeleteStudent code s).1 + 1 = searchCount code s ∧
    ((∃ x, (DeleteStudent code s).1.Studcode x = code) →
      ∃ x1 x2, x1 < x2 ∧ s.Studcode x1 = code ∧ s.Studcode x2 = code ∧
        (∀ y, y < x2 → y ≠ x1 → s.Studcode y ≠ code) ∧
        (DeleteStudent code (DeleteStudent code s).1).1.slot x2 = Buffers.blank ∧
        (∀ y, y ≠ x2 → (DeleteStudent code (DeleteStudent code s).1).1.slot y
          = (DeleteStudent code s).1.slot y) ∧
        (DeleteStudent code (DeleteStudent code s).1).2
          = [Out.text "Student Record Successfully Deleted!"] ∧
        searchCount code (DeleteStudent code (DeleteStudent code s).1).1 + 1
          = searchCount code (DeleteStudent code s).1) ∧
    ((∀ x, (DeleteStudent code s).1.Studcode x ≠ code) →
      (DeleteStudent code (DeleteStudent code s).1).2
        = [Out.text "SR-Code does not Exist!", Out.text rule] ∧
      (DeleteStudent code (DeleteStudent code s).1).1 = (DeleteStudent code s).1) := by
  obtain ⟨x1, hx1, hlow1, heq1⟩ := DeleteStudent_eq_clear code s h
  rw [heq1]
  have hother : ∀ y, y ≠ x1 → (s.clear x1).Studcode y = s.Studcode y := by
    intro y hy
    simp [Store.clear, Function.update_noteq hy]
  have hself : (s.clear x1).Studcode x1 = "" := by simp [Store.clear]
  refine ⟨searchCount_clear code s x1 hc hx1, ?_, ?_⟩
  · intro h2
    obtain ⟨x2, hx2, hlow2, heq2⟩ := DeleteStudent_eq_clear code (s.clear x1) h2
    have hne : x2 ≠ x1 := by
      intro hcontra
      rw [hcontra, hself] at hx2
      exact hc hx2.symm
    have hx2s : s.Studcode x2 = code := by rw [← hother x2 hne]; exact hx2
    have hlt : x1 < x2 := by
      rcases lt_trichotomy x1 x2 with hl | hl | hl
      · exact hl
      · exact absurd hl.symm hne
      · exact absurd hx2s (hlow1 x2 hl)
    refine ⟨x1, x2, hlt, hx1, hx2s, ?_, ?_, ?_, ?_, ?_⟩
    · intro y hy hy1
      rw [← hother y hy1]
      exact hlow2 y hy
    · rw [heq2]
      exact Store.slot_clear_same (s.clear x1) x2
    · intro y hy
      rw [heq2]
      exact Store.slot_clear_other (s.clear x1) x2 y hy
    · rw [heq2]
    · rw [heq2]
      exact searchCount_clear code (s.clear x1) x2 hc hx2
  · intro h2
    rw [DeleteStudent_eq_self code (s.clear x1) h2]
    exact ⟨rfl, rfl⟩

/-- Witness for C9: a table filled with copies of the sample record, deleted from
twice under the sample code. -/
theorem C9_delete_removes_one_match_at_a_time_witness :
    "21-0001" ≠ "" ∧ (∃ x, (Store.full juan).Studcode x = "21-0001") ∧
    searchCount "21-0001" (DeleteStudent "21-0001" (Store.full juan)).1 + 1
      = searchCount "21-0001" (Store.full juan) :=
  ⟨juan_code_ne, ⟨0, rfl⟩,
    (C9_delete_removes_one_match_at_a_time "21-0001" (Store.full juan) juan_code_ne
      ⟨0, rfl⟩).1⟩

/-- Counterexample to C9 as stated: the blank code is held by a slot of the initial
table, yet Search reports 50 slots for it before Delete and 50 after. -/
theorem C9_blank_code_count_does_not_drop :
    (∃ x, Store.init.Studcode x = "") ∧
    searchCount "" Store.init = 50 ∧
    searchCount "" (DeleteStudent "" Store.init).1 = 50 ∧
    ¬ (searchCount "" (DeleteStudent "" Store.init).1 + 1 = searchCount "" Store.init) :=
  ⟨⟨0, rfl⟩, by decide, by decide, by decide⟩

/-! ## Codes in reachable tables -/

theorem Studcode_assign_ne (s : Store) (x y : Fin maxrow) (b : Buffers) (code : String)
    (hs : s.Studcode y ≠ code) (hb : b.code ≠ code) : (s.assign x b).Studcode y ≠ code := by
  by_cases hy : y = x
  · subst hy
    simpa [Store.assign] using hb
  · simpa [Store.assign, Function.update_noteq hy] using hs

theorem Studcode_clear_ne (s : Store) (x y : Fin maxrow) (code : String)
    (hs : s.Studcode y ≠ code) (hc : code ≠ "") : (s.clear x).Studcode y ≠ code := by
  by_cases hy : y = x
  · subst hy
    simpa [Store.clear] using Ne.symm hc
  · simpa [Store.clear, Function.update_noteq hy] using hs

/-- A non-blank code that no slot holds and that is not typed while the actions run is
held by no slot afterwards. -/
theorem run_Studcode_ne (ops : List Op) (s : Store) (code : String) (hc : code ≠ "")
    (hs : ∀ x, s.Studcode x ≠ code) (hent : code ∉ enteredCodes ops s) :
    ∀ x, (run ops s).Studcode x ≠ code := by
  induction ops generalizing s with
  | nil => exact hs
  | cons o os ih =>
    cases o with
    | create b =>
      simp only [enteredCodes, List.mem_cons, not_or] at hent
      apply ih _ _ hent.2
      intro y
      show (AddStudent b s).1.Studcode y ≠ code
      by_cases hblank : ∃ x, s.Studcode x = ""
      · obtain ⟨x, -, -, heq⟩ := AddStudent_eq_assign b s hblank
        rw [heq]
        exact Studcode_assign_ne s x y b code (hs y) (Ne.symm hent.1)
      · push_neg at hblank
        rw [AddStudent_eq_self b s hblank]
        exact hs y
    | update search b =>
      by_cases hm : ∃ x, s.Studcode x = search
      · simp only [enteredCodes, if_pos hm, List.mem_cons, not_or] at hent
        apply ih _ _ hent.2
        intro y
        show (UpdateStudent search b s).1.Studcode y ≠ code
        obtain ⟨x, -, -, heq⟩ := UpdateStudent_eq_assign search b s hm
        rw [heq]
        exact Studcode_assign_ne s x y b code (hs y) (Ne.symm hent.1)
      · simp only [enteredCodes, if_neg hm] at hent
        apply ih _ _ hent
        intro y
        show (UpdateStudent search b s).1.Studcode y ≠ code
        push_neg at hm
        rw [UpdateStudent_eq_self search b s hm]
        exact hs y
    | delete search =>
      simp only [enteredCodes] at hent
      apply ih _ _ hent
      intro y
      show (DeleteStudent search s).1.Studcode y ≠ code
      by_cases hm : ∃ x, s.Studcode x = search
      · obtain ⟨x, -, -, heq⟩ := DeleteStudent_eq_clear search s hm
        rw [heq]
        exact Studcode_clear_ne s x y code (hs y) hc
      · push_neg at hm
        rw [DeleteStudent_eq_self search s hm]
        exact hs y

/-- C4, for a non-blank code: in a table reached from the initial one by Create,
Update and Delete actions, a code that was never typed as the code of a record in
Create or Update has no match in Search, which prints "No Record Found!". -/
theorem C4_search_for_code_never_entered (ops : List Op) (code : String)
    (hc : code ≠ "") (hent : code ∉ enteredCodes ops Store.init) :
    rowsOf (SearchStudent code (run ops Store.init)).2 = [] ∧
    Out.text "No Record Found!" ∈ (SearchStudent code (run ops Store.init)).2 := by
  have hno : ∀ x, (run ops Store.init).Studcode x ≠ code :=
    run_Studcode_ne ops Store.init code hc (fun _ => Ne.symm hc) hent
  have hnil : ((List.finRange maxrow).filter
      fun x => (run ops Store.init).Studcode x = code) = [] := by
    simp [List.filter_eq_nil_iff, hno]
  constructor
  · rw [SearchStudent_out_eq, rowsOf_framed, hnil]
    · rfl
    · split <;> rfl
  · rw [SearchStudent_out_eq, notice_mem_framed _ _ _ title_search_ne, hnil]
    rfl

/-- Witness for C4: after Create of the sample record, an Update that renames it and a
Delete, the code "21-0003" has never been typed and Search finds nothing under it. -/
theorem C4_search_for_code_never_entered_witness :
    "21-0003" ≠ "" ∧
    "21-0003" ∉ enteredCodes
      [Op.create juan, Op.update "21-0001" maria, Op.delete "21-0001"] Store.init ∧
    rowsOf (SearchStudent "21-0003"
      (run [Op.create juan, Op.update "21-0001" maria, Op.delete "21-0001"]
        Store.init)).2 = [] ∧
    Out.text "No Record Found!" ∈ (SearchStudent "21-0003"
      (run [Op.create juan, Op.update "21-0001" maria, Op.delete "21-0001"]
        Store.init)).2 :=
  ⟨by decide, by decide,
    C4_search_for_code_never_entered
      [Op.create juan, Op.update "21-0001" maria, Op.delete "21-0001"] "21-0003"
      (by decide) (by decide)⟩

/-- Counterexample to C4 as stated: with no action performed the blank code has never
been entered, yet Search for it on the initial table reports all 50 slots. -/
theorem C4_blank_code_matches_empty_slots :
    "" ∉ enteredCodes [] Store.init ∧
    (rowsOf (SearchStudent "" (run [] Store.init)).2).length = 50 ∧
    rowsOf (SearchStudent "" (run [] Store.init)).2 ≠ [] ∧
    Out.text "No Record Found!" ∉ (SearchStudent "" (run [] Store.init)).2 :=
  ⟨by decide, by decide, by decide, by decide⟩

/-! ## Create, then List -/

theorem Store.row_eq (s : Store) (counter : Nat) (x : Fin maxrow) :
    s.row counter x = (s.slot x).row counter := rfl

/-- The table of the slots `xs` shows the records held by these slots. -/
theorem Store.table_eq (s : Store) (xs : List (Fin maxrow)) :
    s.table xs = recordTable (xs.map s.slot) := by
  simp [Store.table, recordTable, List.enumFrom_map, Store.row_eq]

/-- The rows of List are the rows of the records in the occupied slots. -/
theorem DisplayStudent_rows_eq (s : Store) :
    rowsOf (DisplayStudent s).2 = recordTable s.records := by
  rw [DisplayStudent_out_eq, rowsOf_framed, Store.table_eq]
  · rfl
  · split <;> rfl

/-- In a table whose blank slots come after all occupied ones, Create of a record with
a non-blank code, while fewer than `maxrow` slots are occupied, appends the record to
the occupied slots and keeps the blank slots last. -/
theorem AddStudent_records_append (b : Buffers) (s : Store) (hb : b.code ≠ "")
    (hsuffix : ∀ x y, x ≤ y → s.Studcode x = "" → s.Studcode y = "")
    (hlen : s.records.length < maxrow) :
    (AddStudent b s).1.records = s.records ++ [b] ∧
    ∀ x y, x ≤ y → (AddStudent b s).1.Studcode x = "" →
      (AddStudent b s).1.Studcode y = "" := by
  have hblank : ∃ x, s.Studcode x = "" := by
    by_contra hno
    push_neg at hno
    have hall : ((List.finRange maxrow).filter fun x => s.Studcode x ≠ "").length
        = (List.finRange maxrow).length := by
      rw [List.filter_length_eq_length]
      intro a _
      simpa using hno a
    unfold Store.records at hlen
    rw [List.length_map, hall, List.length_finRange] at hlen
    exact lt_irrefl _ hlen
  obtain ⟨x, hx, hlow, heq⟩ := AddStudent_eq_assign b s hblank
  obtain ⟨pre, post, hsplit, hpre, hpost⟩ := finRange_split_at x
  have hother : ∀ y, y ≠ x → (s.assign x b).Studcode y = s.Studcode y := by
    intro y hy
    simp [Store.assign, Function.update_noteq hy]
  have hself : (s.assign x b).Studcode x = b.code := by simp [Store.assign]
  have hpre_s : (pre.filter fun y => s.Studcode y ≠ "") = pre := by
    rw [List.filter_eq_self]
    intro y hy
    simpa using hlow y ((hpre y).mp hy)
  have hpost_s : (post.filter fun y => s.Studcode y ≠ "") = [] := by
    rw [List.filter_eq_nil_iff]
    intro y hy
    simpa using hsuffix x y (le_of_lt ((hpost y).mp hy)) hx
  have hpre_a : (pre.filter fun y => (s.assign x b).Studcode y ≠ "") = pre := by
    rw [List.filter_eq_self]
    intro y hy
    have hlt := (hpre y).mp hy
    rw [hother y (ne_of_lt hlt)]
    simpa using hlow y hlt
  have hpost_a : (post.filter fun y => (s.assign x b).Studcode y ≠ "") = [] := by
    rw [List.filter_eq_nil_iff]
    intro y hy
    have hgt := (hpost y).mp hy
    rw [hother y (ne_of_gt hgt)]
    simpa using hsuffix x y (le_of_lt hgt) hx
  have hmap : pre.map (s.assign x b).slot = pre.map s.slot := by
    apply List.map_congr_left
    intro y hy
    exact Store.slot_assign_other s x y b (ne_of_lt ((hpre y).mp hy))
  rw [heq]
  constructor
  · unfold Store.records
    rw [hsplit, List.filter_append, List.filter_append, List.filter_cons, List.filter_cons,
      hpre_s, hpost_s, hpre_a, hpost_a, hself]
    simp [hx, hb, hmap, Store.slot_assign_same]
  · intro u v huv hu
    have hux : u ≠ x := by
      intro hcontra
      rw [hcontra, hself] at hu
      exact hb hu
    rw [hother u hux] at hu
    have hxu : x < u := by
      rcases lt_trichotomy x u with hl | hl | hl
      · exact hl
      · exact absurd hl.symm hux
      · exact absurd hu (hlow u hl)
    rw [hother v (ne_of_gt (lt_of_lt_of_le hxu huv))]
    exact hsuffix u v huv hu

/-- A run of Create actions with non-blank codes that fits into the table appends its
records, in order, to the occupied slots. -/
theorem run_create_records (bs : List Buffers) (s : Store)
    (hcode : ∀ b ∈ bs, b.code ≠ "")
    (hsuffix : ∀ x y, x ≤ y → s.Studcode x = "" → s.Studcode y = "")
    (hlen : s.records.length + bs.length ≤ maxrow) :
    (run (bs.map Op.create) s).records = s.records ++ bs := by
  induction bs generalizing s with
  | nil => simp [run]
  | cons b bs ih =>
    have hb : b.code ≠ "" := hcode b (List.mem_cons_self b bs)
    have hlen1 : s.records.length < maxrow := by
      simp only [List.length_cons] at hlen
      omega
    obtain ⟨hrec, hsuf⟩ := AddStudent_records_append b s hb hsuffix hlen1
    have hstep := ih (AddStudent b s).1 (fun c hc => hcode c (List.mem_cons_of_mem b hc)) hsuf
      (by rw [hrec]; simp only [List.length_append, List.length_cons, List.length_nil] at hlen ⊢
          omega)
    show (run (bs.map Op.create) (AddStudent b s).1).records = s.records ++ b :: bs
    rw [hstep, hrec]
    simp

theorem Store.records_init : Store.init.records = [] := by
  unfold Store.records
  rw [List.map_eq_nil_iff, List.filter_eq_nil_iff]
  intro a _
  simp [Store.init]

/-- C5, for records with non-blank codes: after Create of at most 50 such records, in
order, on the initial table, the rows of List are exactly these records in insertion
order, numbered from 1. -/
theorem C5_list_after_creates (bs : List Buffers) (hlen : bs.length ≤ maxrow)
    (hcode : ∀ b ∈ bs, b.code ≠ "") :
    rowsOf (DisplayStudent (run (bs.map Op.create) Store.init)).2 = recordTable bs := by
  rw [DisplayStudent_rows_eq, run_create_records bs Store.init hcode (fun _ _ _ _ => rfl)
    (by rw [Store.records_init]; simpa using hlen), Store.records_init]
  rfl

/-- Witness for C5: Create of the two sample records, then List. -/
theorem C5_list_after_creates_witness :
    [juan, maria].length ≤ maxrow ∧ (∀ b ∈ [juan, maria], b.code ≠ "") ∧
    rowsOf (DisplayStudent (run ([juan, maria].map Op.create) Store.init)).2
      = recordTable [juan, maria] :=
  ⟨by decide, by decide,
    C5_list_after_creates [juan, maria] (by decide) (by decide)⟩

/-- Counterexample to C5 as stated: one Create of a record whose code line is empty,
then List, shows no row at all instead of the row of that record. -/
theorem C5_blank_code_record_is_not_listed :
    [juanNoCode].length ≤ maxrow ∧
    rowsOf (DisplayStudent (run ([juanNoCode].map Op.create) Store.init)).2 = [] ∧
    rowsOf (DisplayStudent (run ([juanNoCode].map Op.create) Store.init)).2
      ≠ recordTable [juanNoCode] :=
  ⟨by decide, by decide, by decide⟩

/-! ## Update on the input stream -/

theorem UpdateStudentCin_loop_skip (search : String) (s : Store) (pre l : List (Fin maxrow))
    (c : Cin) (counter : Nat) (out : List Out) (h : ∀ y ∈ pre, s.Studcode y ≠ search) :
    UpdateStudentCin.loop search s (pre ++ l) c counter out =
      UpdateStudentCin.loop search s l c counter out := by
  induction pre with
  | nil => rfl
  | cons y ys ih =>
    have hy : s.Studcode y ≠ search := h y (List.mem_cons_self y ys)
    rw [List.cons_append, UpdateStudentCin.loop, if_neg hy]
    exact ih (fun z hz => h z (List.mem_cons_of_mem y hz))

/-- With a matching slot, `UpdateStudent` reads the seven lines and assigns them to
the lowest matching slot. -/
theorem UpdateStudentCin_eq_assign (search : String) (c : Cin) (s : Store)
    (h : ∃ x, s.Studcode x = search) :
    ∃ x, s.Studcode x = search ∧ (∀ y, y < x → s.Studcode y ≠ search) ∧
      UpdateStudentCin search c s =
        ((s.assign x (readBuffers c).1,
          prompts ++ [Out.text " Clinical Student Record Successfully Updated!",
            Out.text rule]), (readBuffers c).2) := by
  obtain ⟨x, pre, post, hsplit, hpx, hlow, hpre, -⟩ :=
    finRange_split (fun x => decide (s.Studcode x = search))
      (by obtain ⟨x, hx⟩ := h; exact ⟨x, by simpa using hx⟩)
  have hx : s.Studcode x = search := by simpa using hpx
  have hlow2 : ∀ y, y < x → s.Studcode y ≠ search := by
    intro y hy
    simpa using hlow y hy
  refine ⟨x, hx, hlow2, ?_⟩
  unfold UpdateStudentCin
  rw [hsplit, UpdateStudentCin_loop_skip search s pre _ c 0 []
    (fun y hy => hlow2 y ((hpre y).mp hy)), UpdateStudentCin.loop, if_pos hx]
  simp

/-- Without a matching slot, `UpdateStudent` keeps the table and the stream and prints
the "Does not Exist" line only. -/
theorem UpdateStudentCin_eq_self (search : String) (c : Cin) (s : Store)
    (h : ∀ x, s.Studcode x ≠ search) :
    UpdateStudentCin search c s = ((s, [Out.text "SR-Code Does not Exist!"]), c) := by
  have := UpdateStudentCin_loop_skip search s (List.finRange maxrow) [] c 0 [] (fun y _ => h y)
  rw [List.append_nil] at this
  unfold UpdateStudentCin
  rw [this, UpdateStudentCin.loop]
  simp

/-- C11: when no slot holds the code, Update prints "SR-Code Does not Exist!" and
nothing else (no prompt), leaves the input stream as it found it (no field is read),
and changes no slot; the outcome does not depend on what the buffers would hold. -/
theorem C11_update_of_missing_code (search : String) (c : Cin) (s : Store)
    (h : ∀ x, s.Studcode x ≠ search) :
    (UpdateStudentCin search c s).1.2 = [Out.text "SR-Code Does not Exist!"] ∧
    (UpdateStudentCin search c s).2 = c ∧
    (UpdateStudentCin search c s).1.1 = s ∧
    (∀ x, (UpdateStudentCin search c s).1.1.slot x = s.slot x) ∧
    ∀ b, UpdateStudent search b s = (s, [Out.text "SR-Code Does not Exist!"]) := by
  rw [UpdateStudentCin_eq_self search c s h]
  exact ⟨rfl, rfl, rfl, fun _ => rfl, fun b => UpdateStudent_eq_self search b s h⟩

/-- Witness for C11: Update under the sample code on the initial table, with a line of
input waiting. -/
theorem C11_update_of_missing_code_witness :
    (∀ x, Store.init.Studcode x ≠ "21-0001") ∧
    (UpdateStudentCin "21-0001" ⟨['2', '1', '\n'], false⟩ Store.init).1.2
      = [Out.text "SR-Code Does not Exist!"] ∧
    (UpdateStudentCin "21-0001" ⟨['2', '1', '\n'], false⟩ Store.init).2
      = ⟨['2', '1', '\n'], false⟩ ∧
    (UpdateStudentCin "21-0001" ⟨['2', '1', '\n'], false⟩ Store.init).1.1 = Store.init :=
  ⟨fun _ => Ne.symm juan_code_ne,
    (C11_update_of_missing_code "21-0001" ⟨['2', '1', '\n'], false⟩ Store.init
      (fun _ => Ne.symm juan_code_ne)).1,
    (C11_update_of_missing_code "21-0001" ⟨['2', '1', '\n'], false⟩ Store.init
      (fun _ => Ne.symm juan_code_ne)).2.1,
    (C11_update_of_missing_code "21-0001" ⟨['2', '1', '\n'], false⟩ Store.init
      (fun _ => Ne.symm juan_code_ne)).2.2.1⟩

/-! ## One Create, then List -/

/-- C12: for a record with a non-blank code, Create on the initial table followed by
List shows exactly one row, numbered 1, with the code, name, health problem, program,
date, time and contact of the record in this order. -/
theorem C12_single_create_then_list (r : Buffers) (h : r.code ≠ "") :
    rowsOf (DisplayStudent (AddStudent r Store.init).1).2 =
      [Out.row 1 r.code r.name r.problem r.program r.date r.time r.contact] := by
  have hrun := run_create_records [r] Store.init
    (fun b hb => by rw [List.mem_singleton] at hb; rw [hb]; exact h)
    (fun _ _ _ _ => rfl) (by rw [Store.records_init]; simp)
  have hrec : (AddStudent r Store.init).1.records = [r] := by
    rw [Store.records_init] at hrun
    exact hrun
  rw [DisplayStudent_rows_eq, hrec]
  rfl

/-- Witness for C12: the scenario of the specification. -/
theorem C12_single_create_then_list_witness :
    juan.code ≠ "" ∧
    rowsOf (DisplayStudent (AddStudent juan Store.init).1).2 =
      [Out.row 1 "21-0001" "Juan Dela Cruz" "Headache" "BSCS" "2024-01-10" "10:00"
        "09171234567"] :=
  ⟨juan_code_ne, C12_single_create_then_list juan juan_code_ne⟩

/-! ## Reuse of a deleted slot -/

/-- C13: when Delete clears slot `i` (the lowest slot holding the code), a following
Create writes its record into the lowest blank slot `j`, which is not above `i`, and
leaves the other slots alone; `j` is `i` itself when every slot below `i` holds a
non-blank code, as on a full table.  This holds for a blank code as well. -/
theorem C13_deleted_slot_is_reused (s : Store) (c : String) (r : Buffers)
    (h : ∃ x, s.Studcode x = c) :
    ∃ i j, s.Studcode i = c ∧ (∀ y, y < i → s.Studcode y ≠ c) ∧
      (DeleteStudent c s).1.slot i = Buffers.blank ∧
      j ≤ i ∧ (DeleteStudent c s).1.Studcode j = "" ∧
      (∀ y, y < j → (DeleteStudent c s).1.Studcode y ≠ "") ∧
      (AddStudent r (DeleteStudent c s).1).1.slot j = r ∧
      (∀ y, y ≠ j →
        (AddStudent r (DeleteStudent c s).1).1.slot y = (DeleteStudent c s).1.slot y) ∧
      ((∀ y, y < i → s.Studcode y ≠ "") → j = i) := by
  obtain ⟨i, hi, hlowi, hdel⟩ := DeleteStudent_eq_clear c s h
  rw [hdel]
  have hself : (s.clear i).Studcode i = "" := by simp [Store.clear]
  have hother : ∀ y, y ≠ i → (s.clear i).Studcode y = s.Studcode y := by
    intro y hy
    simp [Store.clear, Function.update_noteq hy]
  obtain ⟨j, hj, hlowj, hadd⟩ := AddStudent_eq_assign r (s.clear i) ⟨i, hself⟩
  have hji : j ≤ i := by
    by_contra hcon
    exact hlowj i (lt_of_not_ge hcon) hself
  refine ⟨i, j, hi, hlowi, Store.slot_clear_same s i, hji, hj, hlowj, ?_, ?_, ?_⟩
  · rw [hadd]
    exact Store.slot_assign_same (s.clear i) j r
  · intro y hy
    rw [hadd]
    exact Store.slot_assign_other (s.clear i) j y r hy
  · intro hfull
    by_contra hne
    have hlt : j < i := lt_of_le_of_ne hji hne
    rw [hother j hne] at hj
    exact hfull j hlt hj

/-- Witness for C13: on a table filled with the sample record, Delete and then Create
of the second record. -/
theorem C13_deleted_slot_is_reused_witness :
    (∃ x, (Store.full juan).Studcode x = "21-0001") ∧
    ∃ i j, (Store.full juan).Studcode i = "21-0001" ∧
      (∀ y, y < i → (Store.full juan).Studcode y ≠ "21-0001") ∧
      (DeleteStudent "21-0001" (Store.full juan)).1.slot i = Buffers.blank ∧
      j ≤ i ∧ (DeleteStudent "21-0001" (Store.full juan)).1.Studcode j = "" ∧
      (∀ y, y < j → (DeleteStudent "21-0001" (Store.full juan)).1.Studcode y ≠ "") ∧
      (AddStudent maria (DeleteStudent "21-0001" (Store.full juan)).1).1.slot j = maria ∧
      (∀ y, y ≠ j →
        (AddStudent maria (DeleteStudent "21-0001" (Store.full juan)).1).1.slot y
          = (DeleteStudent "21-0001" (Store.full juan)).1.slot y) ∧
      ((∀ y, y < i → (Store.full juan).Studcode y ≠ "") → j = i) :=
  ⟨⟨0, rfl⟩, C13_deleted_slot_is_reused (Store.full juan) "21-0001" maria ⟨0, rfl⟩⟩

/-! ## Size of the table, no compaction -/

/-- An action changes at most one slot, and that slot becomes blank or takes the
record typed for the action. -/
theorem Op.apply_frame (o : Op) (s : Store) :
    ∃ x, (∀ y, y ≠ x → (o.apply s).slot y = s.slot y) ∧
      ((o.apply s).slot x = s.slot x ∨ (o.apply s).slot x = Buffers.blank ∨
        ∃ b, (o = Op.create b ∨ ∃ search, o = Op.update search b) ∧
          (o.apply s).slot x = b) := by
  cases o with
  | create b =>
    show ∃ x, (∀ y, y ≠ x → (AddStudent b s).1.slot y = s.slot y) ∧ _
    by_cases hb : ∃ x, s.Studcode x = ""
    · obtain ⟨x, -, -, heq⟩ := AddStudent_eq_assign b s hb
      refine ⟨x, fun y hy => by rw [heq]; exact Store.slot_assign_other s x y b hy, ?_⟩
      right; right
      refine ⟨b, Or.inl rfl, ?_⟩
      show (AddStudent b s).1.slot x = b
      rw [heq]
      exact Store.slot_assign_same s x b
    · push_neg at hb
      have heq := AddStudent_eq_self b s hb
      refine ⟨0, fun y _ => by rw [heq], Or.inl ?_⟩
      show (AddStudent b s).1.slot 0 = s.slot 0
      rw [heq]
  | update search b =>
    show ∃ x, (∀ y, y ≠ x → (UpdateStudent search b s).1.slot y = s.slot y) ∧ _
    by_cases hm : ∃ x, s.Studcode x = search
    · obtain ⟨x, -, -, heq⟩ := UpdateStudent_eq_assign search b s hm
      refine ⟨x, fun y hy => by rw [heq]; exact Store.slot_assign_other s x y b hy, ?_⟩
      right; right
      refine ⟨b, Or.inr ⟨search, rfl⟩, ?_⟩
      show (UpdateStudent search b s).1.slot x = b
      rw [heq]
      exact Store.slot_assign_same s x b
    · push_neg at hm
      have heq := UpdateStudent_eq_self search b s hm
      refine ⟨0, fun y _ => by rw [heq], Or.inl ?_⟩
      show (UpdateStudent search b s).1.slot 0 = s.slot 0
      rw [heq]
  | delete search =>
    show ∃ x, (∀ y, y ≠ x → (DeleteStudent search s).1.slot y = s.slot y) ∧ _
    by_cases hm : ∃ x, s.Studcode x = search
    · obtain ⟨x, -, -, heq⟩ := DeleteStudent_eq_clear search s hm
      refine ⟨x, fun y hy => by rw [heq]; exact Store.slot_clear_other s x y hy, ?_⟩
      right; left
      show (DeleteStudent search s).1.slot x = Buffers.blank
      rw [heq]
      exact Store.slot_clear_same s x
    · push_neg at hm
      have heq := DeleteStudent_eq_self search s hm
      refine ⟨0, fun y _ => by rw [heq], Or.inl ?_⟩
      show (DeleteStudent search s).1.slot 0 = s.slot 0
      rw [heq]

theorem Store.records_length_le (s : Store) : s.records.length ≤ maxrow := by
  unfold Store.records
  rw [List.length_map]
  have h := List.length_filter_le (fun x => decide (s.Studcode x ≠ "")) (List.finRange maxrow)
  rw [List.length_finRange] at h
  exact h

/-- C14: the table has exactly 50 slots; in every table reached from the initial one by
Create, Update and Delete actions at most 50 slots are occupied; and no action moves a
record to another slot: an action changes at most one slot, which becomes blank or
takes the record typed for this action. -/
theorem C14_fifty_slots_and_no_compaction :
    Fintype.card (Fin maxrow) = 50 ∧
    (∀ ops, (run ops Store.init).records.length ≤ 50) ∧
    ∀ (o : Op) (s : Store),
      ∃ x, (∀ y, y ≠ x → (o.apply s).slot y = s.slot y) ∧
        ((o.apply s).slot x = s.slot x ∨ (o.apply s).slot x = Buffers.blank ∨
          ∃ b, (o = Op.create b ∨ ∃ search, o = Op.update search b) ∧
            (o.apply s).slot x = b) :=
  ⟨by simp, fun ops => Store.records_length_le (run ops Store.init), Op.apply_frame⟩

/-! ## The menu loop -/

/-- An option outside 1..6 selects no case of the switch. -/
theorem menuSwitch_other (opt : Int) (c : Cin) (studcode : String) (s : Store)
    (h : opt < 1 ∨ 6 < opt) :
    menuSwitch opt c studcode s = (⟨c, opt, studcode, s⟩, []) := by
  unfold menuSwitch
  rw [if_neg (by omega), if_neg (by omega), if_neg (by omega), if_neg (by omega),
    if_neg (by omega)]

/-- The switch stores no new value in `opt`. -/
theorem menuSwitch_opt (opt : Int) (c : Cin) (studcode : String) (s : Store) :
    (menuSwitch opt c studcode s).1.opt = opt := by
  unfold menuSwitch
  split_ifs <;> rfl

/-- C15: when the option read in a pass of the menu loop is outside 1..6, the pass
leaves every slot unchanged and the loop goes on with the next pass; and the loop
stops after a pass exactly when the option read in it is 6: it stops when that option
is 6 and goes on with the next pass when it is not. -/
theorem C15_unknown_option_is_ignored (m : Machine) :
    ((m.cin.readInt m.opt).1 < 1 ∨ 6 < (m.cin.readInt m.opt).1 →
      (mainBody m).1.store = m.store ∧
      (∀ x, (mainBody m).1.store.slot x = m.store.slot x) ∧
      ∀ fuel, mainLoop (fuel + 1) m =
        (mainLoop fuel (mainBody m).1).map fun q => (q.1, (mainBody m).2 ++ q.2)) ∧
    (mainBody m).1.opt = (m.cin.readInt m.opt).1 ∧
    ((m.cin.readInt m.opt).1 = 6 → ∀ fuel, mainLoop (fuel + 1) m = some (mainBody m)) ∧
    ((m.cin.readInt m.opt).1 ≠ 6 → ∀ fuel, mainLoop (fuel + 1) m =
        (mainLoop fuel (mainBody m).1).map fun q => (q.1, (mainBody m).2 ++ q.2)) ∧
    ((mainLoop 1 m).isSome ↔ (m.cin.readInt m.opt).1 = 6) := by
  have hopt : (mainBody m).1.opt = (m.cin.readInt m.opt).1 := by
    unfold mainBody
    exact menuSwitch_opt _ _ _ _
  have hgo : (m.cin.readInt m.opt).1 ≠ 6 → ∀ fuel, mainLoop (fuel + 1) m =
      (mainLoop fuel (mainBody m).1).map fun q => (q.1, (mainBody m).2 ++ q.2) := by
    intro h6 fuel
    have hne : (mainBody m).1.opt ≠ 6 := by rw [hopt]; exact h6
    rw [mainLoop, if_pos hne]
  have hstop : (m.cin.readInt m.opt).1 = 6 → ∀ fuel, mainLoop (fuel + 1) m
      = some (mainBody m) := by
    intro h6 fuel
    have hno : ¬ (mainBody m).1.opt ≠ 6 := by rw [hopt]; exact not_not.mpr h6
    rw [mainLoop, if_neg hno]
  refine ⟨?_, hopt, hstop, hgo, ?_⟩
  · intro h
    have hbody : (mainBody m).1.store = m.store := by
      unfold mainBody
      simp only [menuSwitch_other _ _ _ _ h]
    exact ⟨hbody, fun x => by rw [hbody], hgo (by omega)⟩
  · by_cases h6 : (m.cin.readInt m.opt).1 = 6
    · rw [hstop h6 0]
      simp [h6]
    · rw [hgo h6 0]
      simp [mainLoop, h6]

/-- Witness for C15: the option 9 is typed at the first prompt. -/
theorem C15_unknown_option_is_ignored_witness :
    (6 < ((Machine.start ['9', '\n'] 0).cin.readInt (Machine.start ['9', '\n'] 0).opt).1) ∧
    (mainBody (Machine.start ['9', '\n'] 0)).1.store = (Machine.start ['9', '\n'] 0).store :=
  ⟨by decide,
    ((C15_unknown_option_is_ignored (Machine.start ['9', '\n'] 0)).1
      (Or.inr (by decide))).1⟩

/-! ## Field lengths -/

theorem Cin.getlineLoop_length (room : Nat) (l : List Char) :
    (Cin.getlineLoop room l).1.length ≤ room := by
  induction l generalizing room with
  | nil => simp [Cin.getlineLoop]
  | cons ch rest ih =>
    unfold Cin.getlineLoop
    split_ifs with hnl
    · simp
    · cases room with
      | zero => simp
      | succ k =>
        simp only [List.length_cons]
        exact Nat.succ_le_succ (ih k)

/-- The C string left in `buf` by `cin.getline(buf, n)` has at most `n - 1`
characters, whatever the input. -/
theorem Cin.getline_length (c : Cin) (n : Nat) : (c.getline n).1.length ≤ n - 1 := by
  unfold Cin.getline
  split_ifs
  · simp
  · rw [String.length_mk]
    exact le_trans (List.takeWhile_sublist _).length_le (Cin.getlineLoop_length _ _)

theorem readBuffers_bounded (c : Cin) : (readBuffers c).1.Bounded := by
  unfold readBuffers Buffers.Bounded
  exact ⟨Cin.getline_length _ 15, Cin.getline_length _ 50, Cin.getline_length _ 30,
    Cin.getline_length _ 50, Cin.getline_length _ 30, Cin.getline_length _ 10,
    Cin.getline_length _ 13⟩

theorem Store.init_bounded : Store.init.Bounded := by
  intro x
  show Buffers.blank.Bounded
  decide

theorem Store.assign_bounded (s : Store) (x : Fin maxrow) (b : Buffers) (hs : s.Bounded)
    (hb : b.Bounded) : (s.assign x b).Bounded := by
  intro y
  by_cases hy : y = x
  · rw [hy, Store.slot_assign_same]
    exact hb
  · rw [Store.slot_assign_other s x y b hy]
    exact hs y

theorem Store.clear_bounded (s : Store) (x : Fin maxrow) (hs : s.Bounded) :
    (s.clear x).Bounded := by
  intro y
  by_cases hy : y = x
  · rw [hy, Store.slot_clear_same]
    decide
  · rw [Store.slot_clear_other s x y hy]
    exact hs y

theorem AddStudent_bounded (b : Buffers) (s : Store) (hs : s.Bounded) (hb : b.Bounded) :
    (AddStudent b s).1.Bounded := by
  by_cases h : ∃ x, s.Studcode x = ""
  · obtain ⟨x, -, -, heq⟩ := AddStudent_eq_assign b s h
    rw [heq]
    exact Store.assign_bounded s x b hs hb
  · push_neg at h
    rw [AddStudent_eq_self b s h]
    exact hs

theorem DeleteStudent_bounded (search : String) (s : Store) (hs : s.Bounded) :
    (DeleteStudent search s).1.Bounded := by
  by_cases h : ∃ x, s.Studcode x = search
  · obtain ⟨x, -, -, heq⟩ := DeleteStudent_eq_clear search s h
    rw [heq]
    exact Store.clear_bounded s x hs
  · push_neg at h
    rw [DeleteStudent_eq_self search s h]
    exact hs

theorem UpdateStudentCin_bounded (search : String) (c : Cin) (s : Store) (hs : s.Bounded) :
    (UpdateStudentCin search c s).1.1.Bounded := by
  by_cases h : ∃ x, s.Studcode x = search
  · obtain ⟨x, -, -, heq⟩ := UpdateStudentCin_eq_assign search c s h
    rw [heq]
    exact Store.assign_bounded s x _ hs (readBuffers_bounded c)
  · push_neg at h
    rw [UpdateStudentCin_eq_self search c s h]
    exact hs

/-- A pass through the loop body keeps every slot within the sizes of the buffers. -/
theorem mainBody_bounded (m : Machine) (hs : m.store.Bounded) :
    (mainBody m).1.store.Bounded := by
  show (menuSwitch (m.cin.readInt m.opt).1 (m.cin.readInt m.opt).2 m.studcode
    m.store).1.store.Bounded
  unfold menuSwitch
  split_ifs
  · exact AddStudent_bounded _ _ hs (readBuffers_bounded _)
  · exact hs
  · exact hs
  · exact DeleteStudent_bounded _ _ hs
  · exact UpdateStudentCin_bounded _ _ _ hs
  · exact hs

theorem passes_bounded (n : Nat) (m : Machine) (hs : m.store.Bounded) :
    (passes n m).store.Bounded := by
  induction n generalizing m with
  | zero => exact hs
  | succ k ih => exact ih (mainBody m).1 (mainBody_bounded m hs)

/-- C16: whatever is waiting on the input, the seven buffers read for Create or Update
hold at most 14, 49, 29, 49, 29, 9 and 12 characters (code, name, program, health
problem, date, time, contact); every slot that Create or Update changes respects these
limits; and so does every slot of every table the program reaches from the initial
one, for every input. -/
theorem C16_fields_respect_the_buffer_sizes :
    (∀ c : Cin, (readBuffers c).1.code.length ≤ 14 ∧ (readBuffers c).1.name.length ≤ 49 ∧
      (readBuffers c).1.program.length ≤ 29 ∧ (readBuffers c).1.problem.length ≤ 49 ∧
      (readBuffers c).1.date.length ≤ 29 ∧ (readBuffers c).1.time.length ≤ 9 ∧
      (readBuffers c).1.contact.length ≤ 12) ∧
    (∀ (c : Cin) (s : Store) (x : Fin maxrow),
      (AddStudentCin c s).1.1.slot x = s.slot x ∨ ((AddStudentCin c s).1.1.slot x).Bounded) ∧
    (∀ (search : String) (c : Cin) (s : Store) (x : Fin maxrow),
      (UpdateStudentCin search c s).1.1.slot x = s.slot x ∨
        ((UpdateStudentCin search c s).1.1.slot x).Bounded) ∧
    ∀ (input : List Char) (opt0 : Int) (n : Nat) (x : Fin maxrow),
      ((passes n (Machine.start input opt0)).store.slot x).Bounded := by
  refine ⟨readBuffers_bounded, ?_, ?_, ?_⟩
  · intro c s x
    show (AddStudent (readBuffers c.ignore).1 s).1.slot x = s.slot x ∨ _
    by_cases h : ∃ y, s.Studcode y = ""
    · obtain ⟨x0, -, -, heq⟩ := AddStudent_eq_assign (readBuffers c.ignore).1 s h
      by_cases hx : x = x0
      · right
        show ((AddStudent (readBuffers c.ignore).1 s).1.slot x).Bounded
        rw [heq, hx, Store.slot_assign_same]
        exact readBuffers_bounded _
      · left
        rw [heq]
        exact Store.slot_assign_other s x0 x _ hx
    · push_neg at h
      left
      rw [AddStudent_eq_self _ s h]
  · intro search c s x
    by_cases h : ∃ y, s.Studcode y = search
    · obtain ⟨x0, -, -, heq⟩ := UpdateStudentCin_eq_assign search c s h
      rw [heq]
      by_cases hx : x = x0
      · right
        rw [hx, Store.slot_assign_same]
        exact readBuffers_bounded _
      · left
        exact Store.slot_assign_other s x0 x _ hx
    · push_neg at h
      left
      rw [UpdateStudentCin_eq_self search c s h]
  · intro input opt0 n x
    exact passes_bounded n (Machine.start input opt0) Store.init_bounded x

/-! ## The input consumed by Delete -/

/-- Once the stream is not good, with `opt` left at 4 and a code that no slot holds,
a pass through the loop body changes nothing of this. -/
theorem mainBody_stuck (m : Machine) (hbad : m.cin.bad = true) (hopt : m.opt = 4)
    (hno : ∀ x, m.store.Studcode x ≠ m.studcode) :
    (mainBody m).1.cin.bad = true ∧ (mainBody m).1.opt = 4 ∧
      ∀ x, (mainBody m).1.store.Studcode x ≠ (mainBody m).1.studcode := by
  have hread : m.cin.readInt m.opt = (4, m.cin) := by
    unfold Cin.readInt
    rw [if_pos hbad, hopt]
  have hign : m.cin.ignore = m.cin := by
    unfold Cin.ignore
    rw [if_pos hbad]
  have hget : getline m.cin m.studcode = (m.studcode, m.cin) := by
    unfold getline
    rw [if_pos hbad]
  have hbody : (mainBody m).1
      = ⟨m.cin, 4, m.studcode, (DeleteStudent m.studcode m.store).1⟩ := by
    unfold mainBody
    rw [hread]
    unfold menuSwitch
    simp only [hign, hget]
    rfl
  rw [hbody, DeleteStudent_eq_self m.studcode m.store hno]
  exact ⟨hbad, rfl, hno⟩

theorem mainLoop_stuck (fuel : Nat) (m : Machine) (hbad : m.cin.bad = true) (hopt : m.opt = 4)
    (hno : ∀ x, m.store.Studcode x ≠ m.studcode) : mainLoop fuel m = none := by
  induction fuel generalizing m with
  | zero => rfl
  | succ k ih =>
    obtain ⟨h1, h2, h3⟩ := mainBody_stuck m hbad hopt hno
    have hne : (mainBody m).1.opt ≠ 6 := by rw [h2]; decide
    rw [mainLoop, if_pos hne, ih (mainBody m).1 h1 h2 h3]
    rfl

/-- C17 fails on the code: in the session "4, 21-0001, 6" the Delete case consumes, after
the line of the search code, the character `6` of the next option as well (the second
`cin.ignore()` of case 4), while the Search and Update cases leave that line alone.
The next read of `opt` then finds no number, `opt` stays 4, and the loop never stops,
whereas the same session with Search in place of Delete reads 6 and stops. -/
theorem C17_delete_swallows_the_next_character :
    (mainBody (Machine.start sessionDelete 0)).1.cin = ⟨['\n'], false⟩ ∧
    (mainBody (Machine.start sessionSearch 0)).1.cin = ⟨['6', '\n'], false⟩ ∧
    (mainBody (Machine.start sessionUpdate 0)).1.cin = ⟨['6', '\n'], false⟩ ∧
    (passes 2 (Machine.start sessionDelete 0)).opt = 4 ∧
    (passes 2 (Machine.start sessionSearch 0)).opt = 6 ∧
    (∀ fuel, main fuel sessionDelete 0 = none) ∧
    (main 2 sessionSearch 0).isSome = true := by
  refine ⟨by decide, by decide, by decide, by decide, by decide, ?_, by decide⟩
  intro fuel
  have hloop : mainLoop fuel (Machine.start sessionDelete 0) = none := by
    cases fuel with
    | zero => rfl
    | succ k =>
      have hne : (mainBody (Machine.start sessionDelete 0)).1.opt ≠ 6 := by decide
      rw [mainLoop, if_pos hne]
      cases k with
      | zero => rfl
      | succ j =>
        have hne2 : (mainBody (mainBody (Machine.start sessionDelete 0)).1).1.opt ≠ 6 := by
          decide
        rw [mainLoop, if_pos hne2,
          mainLoop_stuck j (mainBody (mainBody (Machine.start sessionDelete 0)).1).1
            (by decide) (by decide) (by decide)]
        rfl
  unfold main
  rw [hloop]
  rfl

/-! ## Create and Search -/

/-- The records that Search shows are those of the matching slots, in slot order. -/
theorem SearchStudent_rows_eq (search : String) (s : Store) :
    rowsOf (SearchStudent search s).2 =
      recordTable (((List.finRange maxrow).filter fun y => s.Studcode y = search).map s.slot) := by
  rw [SearchStudent_out_eq, rowsOf_framed, Store.table_eq]
  split <;> rfl

/-- C18: Create of a record with a non-blank code, on a table with a blank slot, puts
the record into the result of Search for its code at its slot position: the matches
in the slots below the filled slot, then the new record, then the matches in the slots
above; Search shows the record and reports exactly one more match than before. -/
theorem C18_create_adds_one_search_match (s : Store) (r : Buffers)
    (hb : ∃ x, s.Studcode x = "") (hc : r.code ≠ "") :
    ∃ x, s.Studcode x = "" ∧ (∀ y, y < x → s.Studcode y ≠ "") ∧
      rowsOf (SearchStudent r.code s).2 = recordTable
        (((List.finRange maxrow).filter fun y => y < x ∧ s.Studcode y = r.code).map s.slot
          ++ ((List.finRange maxrow).filter fun y => x < y ∧ s.Studcode y = r.code).map s.slot) ∧
      rowsOf (SearchStudent r.code (AddStudent r s).1).2 = recordTable
        (((List.finRange maxrow).filter fun y => y < x ∧ s.Studcode y = r.code).map s.slot
          ++ r ::
            ((List.finRange maxrow).filter fun y => x < y ∧ s.Studcode y = r.code).map s.slot) ∧
      (∃ k, r.row k ∈ rowsOf (SearchStudent r.code (AddStudent r s).1).2) ∧
      searchCount r.code (AddStudent r s).1 = searchCount r.code s + 1 := by
  obtain ⟨x, hx, hlow, heq⟩ := AddStudent_eq_assign r s hb
  obtain ⟨pre, post, hsplit, hpre, hpost⟩ := finRange_split_at x
  have hother : ∀ y, y ≠ x → (s.assign x r).Studcode y = s.Studcode y := by
    intro y hy
    simp [Store.assign, Function.update_noteq hy]
  have hself : (s.assign x r).Studcode x = r.code := by simp [Store.assign]
  have hxne : s.Studcode x ≠ r.code := by rw [hx]; exact Ne.symm hc
  -- the matches of the old table, below and above the filled slot
  have hpre_lt : (pre.filter fun y => y < x ∧ s.Studcode y = r.code)
      = pre.filter fun y => s.Studcode y = r.code := by
    apply List.filter_congr
    intro y hy
    simp [(hpre y).mp hy]
  have hpost_lt : (post.filter fun y => y < x ∧ s.Studcode y = r.code) = [] := by
    rw [List.filter_eq_nil_iff]
    intro y hy
    simp [not_lt_of_gt ((hpost y).mp hy)]
  have hpre_gt : (pre.filter fun y => x < y ∧ s.Studcode y = r.code) = [] := by
    rw [List.filter_eq_nil_iff]
    intro y hy
    simp [not_lt_of_gt ((hpre y).mp hy)]
  have hpost_gt : (post.filter fun y => x < y ∧ s.Studcode y = r.code)
      = post.filter fun y => s.Studcode y = r.code := by
    apply List.filter_congr
    intro y hy
    simp [(hpost y).mp hy]
  have hbelow : ((List.finRange maxrow).filter fun y => y < x ∧ s.Studcode y = r.code)
      = pre.filter fun y => s.Studcode y = r.code := by
    rw [hsplit, List.filter_append, List.filter_cons, hpre_lt, hpost_lt]
    simp
  have habove : ((List.finRange maxrow).filter fun y => x < y ∧ s.Studcode y = r.code)
      = post.filter fun y => s.Studcode y = r.code := by
    rw [hsplit, List.filter_append, List.filter_cons, hpre_gt, hpost_gt]
    simp
  have hold : ((List.finRange maxrow).filter fun y => s.Studcode y = r.code)
      = (pre.filter fun y => s.Studcode y = r.code)
        ++ post.filter fun y => s.Studcode y = r.code := by
    rw [hsplit, List.filter_append, List.filter_cons]
    simp [hxne]
  -- the matches of the new table
  have hpre_new : (pre.filter fun y => (s.assign x r).Studcode y = r.code)
      = pre.filter fun y => s.Studcode y = r.code := by
    apply List.filter_congr
    intro y hy
    rw [hother y (ne_of_lt ((hpre y).mp hy))]
  have hpost_new : (post.filter fun y => (s.assign x r).Studcode y = r.code)
      = post.filter fun y => s.Studcode y = r.code := by
    apply List.filter_congr
    intro y hy
    rw [hother y (ne_of_gt ((hpost y).mp hy))]
  have hnew : ((List.finRange maxrow).filter fun y => (s.assign x r).Studcode y = r.code)
      = (pre.filter fun y => s.Studcode y = r.code)
        ++ x :: post.filter fun y => s.Studcode y = r.code := by
    rw [hsplit, List.filter_append, List.filter_cons, hpre_new, hpost_new]
    simp [hself]
  have hmap_pre : (pre.filter fun y => s.Studcode y = r.code).map (s.assign x r).slot
      = (pre.filter fun y => s.Studcode y = r.code).map s.slot := by
    apply List.map_congr_left
    intro y hy
    exact Store.slot_assign_other s x y r (ne_of_lt ((hpre y).mp (List.mem_of_mem_filter hy)))
  have hmap_post : (post.filter fun y => s.Studcode y = r.code).map (s.assign x r).slot
      = (post.filter fun y => s.Studcode y = r.code).map s.slot := by
    apply List.map_congr_left
    intro y hy
    exact Store.slot_assign_other s x y r (ne_of_gt ((hpost y).mp (List.mem_of_mem_filter hy)))
  have hrows_new : rowsOf (SearchStudent r.code (AddStudent r s).1).2 = recordTable
      (((List.finRange maxrow).filter fun y => y < x ∧ s.Studcode y = r.code).map s.slot
        ++ r ::
          ((List.finRange maxrow).filter fun y => x < y ∧ s.Studcode y = r.code).map s.slot) := by
    rw [SearchStudent_rows_eq, heq, hnew, hbelow, habove, List.map_append, List.map_cons,
      hmap_pre, hmap_post, Store.slot_assign_same]
  refine ⟨x, hx, hlow, ?_, hrows_new, ?_, ?_⟩
  · rw [SearchStudent_rows_eq, hold, hbelow, habove, List.map_append]
  · rw [hrows_new]
    refine ⟨1 + (((List.finRange maxrow).filter
      fun y => y < x ∧ s.Studcode y = r.code).map s.slot).length, ?_⟩
    simp [recordTable, List.enumFrom_append]
  · rw [searchCount_eq, searchCount_eq, heq, hnew, hold]
    simp only [List.length_append, List.length_cons]
    omega

/-- Witness for C18: Create of the sample record on the initial table. -/
theorem C18_create_adds_one_search_match_witness :
    (∃ x, Store.init.Studcode x = "") ∧ juan.code ≠ "" ∧
    searchCount juan.code (AddStudent juan Store.init).1
      = searchCount juan.code Store.init + 1 :=
  ⟨⟨0, rfl⟩, juan_code_ne,
    by
      obtain ⟨_, _, _, _, _, _, h⟩ :=
        C18_create_adds_one_search_match Store.init juan ⟨0, rfl⟩ juan_code_ne
      exact h⟩

/-! ## Create, then Delete -/

/-- Clearing a slot right after assigning it gives back a table whose slot was blank. -/
theorem Store.clear_assign (s : Store) (x : Fin maxrow) (b : Buffers)
    (h : s.slot x = Buffers.blank) : (s.assign x b).clear x = s := by
  simp only [Store.slot, Buffers.blank, Buffers.mk.injEq] at h
  obtain ⟨h1, h2, h3, h4, h5, h6, h7⟩ := h
  have hfield : ∀ (f : Fin maxrow → String) (v : String), f x = "" →
      Function.update (Function.update f x v) x "" = f := by
    intro f v hf
    rw [Function.update_idem, ← hf]
    exact Function.update_eq_self x f
  apply Store.ext
  · exact hfield s.StudName b.name h2
  · exact hfield s.Studcode b.code h1
  · exact hfield s.Studprogram b.program h3
  · exact hfield s.Healthproblem b.problem h4
  · exact hfield s.Date b.date h5
  · exact hfield s.Time b.time h6
  · exact hfield s.ContactNum b.contact h7

/-- C19: in a table whose blank-code slots are blank in all seven fields, Create of a
record whose code no slot holds, followed by Delete of that code, gives back the
original table in every slot and field.  A code that is non-blank and held by no slot
is a case of this; a blank code held by no slot means a full table, where neither
action changes anything. -/
theorem C19_create_then_delete_round_trip (s : Store) (r : Buffers)
    (hblank : ∀ x, s.Studcode x = "" → s.slot x = Buffers.blank)
    (hfresh : ∀ x, s.Studcode x ≠ r.code) :
    (DeleteStudent r.code (AddStudent r s).1).1 = s ∧
    ∀ x, (DeleteStudent r.code (AddStudent r s).1).1.slot x = s.slot x := by
  have key : (DeleteStudent r.code (AddStudent r s).1).1 = s := by
    by_cases hb : ∃ x, s.Studcode x = ""
    · obtain ⟨x, hx, -, heq⟩ := AddStudent_eq_assign r s hb
      have hself : (s.assign x r).Studcode x = r.code := by simp [Store.assign]
      have hother : ∀ y, y ≠ x → (s.assign x r).Studcode y = s.Studcode y := by
        intro y hy
        simp [Store.assign, Function.update_noteq hy]
      obtain ⟨x1, hx1, -, hdel⟩ := DeleteStudent_eq_clear r.code (s.assign x r) ⟨x, hself⟩
      have hxx : x1 = x := by
        by_contra hne
        rw [hother x1 hne] at hx1
        exact hfresh x1 hx1
      rw [heq, hdel, hxx]
      exact Store.clear_assign s x r (hblank x hx)
    · push_neg at hb
      rw [AddStudent_eq_self r s hb, DeleteStudent_eq_self r.code s hfresh]
  exact ⟨key, fun x => by rw [key]⟩

/-- Witness for C19: Create and Delete of the sample record on the initial table. -/
theorem C19_create_then_delete_round_trip_witness :
    (∀ x, Store.init.Studcode x = "" → Store.init.slot x = Buffers.blank) ∧
    juan.code ≠ "" ∧ (∀ x, Store.init.Studcode x ≠ juan.code) ∧
    (DeleteStudent juan.code (AddStudent juan Store.init).1).1 = Store.init :=
  ⟨fun _ _ => rfl, juan_code_ne, fun _ => Ne.symm juan_code_ne,
    (C19_create_then_delete_round_trip Store.init juan (fun _ _ => rfl)
      (fun _ => Ne.symm juan_code_ne)).1⟩

/-! ## Update under the blank code -/

theorem UpdateStudent_loop_blank (b : Buffers) (s : Store) (l : List (Fin maxrow))
    (counter : Nat) (out : List Out) :
    (UpdateStudent.loop "" b s l counter out).1 = AddStudent.loop b s l := by
  induction l with
  | nil => rfl
  | cons x xs ih =>
    by_cases hx : s.Studcode x = ""
    · rw [UpdateStudent.loop, AddStudent.loop, if_pos hx, if_pos hx]
    · rw [UpdateStudent.loop, AddStudent.loop, if_neg hx, if_neg hx]
      exact ih

/-- C20: Update under the blank search code leaves the same table as Create of the
entered record, slot for slot: the record is in the lowest slot with a blank code, or
nothing has changed when no slot has a blank code. -/
theorem C20_update_with_blank_code_is_create (s : Store) (r : Buffers) :
    (UpdateStudent "" r s).1 = (AddStudent r s).1 ∧
    (∀ x, (UpdateStudent "" r s).1.slot x = (AddStudent r s).1.slot x) ∧
    ((∃ x, s.Studcode x = "") →
      ∃ x, s.Studcode x = "" ∧ (∀ y, y < x → s.Studcode y ≠ "") ∧
        (UpdateStudent "" r s).1.slot x = r ∧
        ∀ y, y ≠ x → (UpdateStudent "" r s).1.slot y = s.slot y) ∧
    ((∀ x, s.Studcode x ≠ "") → (UpdateStudent "" r s).1 = s) := by
  have key : (UpdateStudent "" r s).1 = (AddStudent r s).1 :=
    UpdateStudent_loop_blank r s (List.finRange maxrow) 0 []
  refine ⟨key, fun x => by rw [key], ?_, ?_⟩
  · intro hb
    obtain ⟨x, hx, hlow, heq⟩ := AddStudent_eq_assign r s hb
    refine ⟨x, hx, hlow, ?_, ?_⟩
    · rw [key, heq]
      exact Store.slot_assign_same s x r
    · intro y hy
      rw [key, heq]
      exact Store.slot_assign_other s x y r hy
  · intro hfull
    rw [key]
    exact AddStudent_eq_self r s hfull

/-- Witness for C20: on the initial table Update under the blank code stores the
sample record in a slot, as Create does. -/
theorem C20_update_with_blank_code_is_create_witness :
    (∃ x, Store.init.Studcode x = "") ∧
    (UpdateStudent "" juan Store.init).1 = (AddStudent juan Store.init).1 ∧
    ∃ x, Store.init.Studcode x = "" ∧ (∀ y, y < x → Store.init.Studcode y ≠ "") ∧
      (UpdateStudent "" juan Store.init).1.slot x = juan ∧
      ∀ y, y ≠ x → (UpdateStudent "" juan Store.init).1.slot y = Store.init.slot y :=
  ⟨⟨0, rfl⟩, (C20_update_with_blank_code_is_create Store.init juan).1,
    (C20_update_with_blank_code_is_create Store.init juan).2.2.1 ⟨0, rfl⟩⟩

end ClinicRecord
